import Mathlib

/-!
Verification of the aio_pages template-rendering scripts
(generate_serp_html.py, generate_aio_html.py, generate_aio_as_serp_html.py).

Text is modelled as `List Char` (`Str`); the parsed HTML document as a
tree of tagged elements (`Node`).  Python / pandas / BeautifulSoup
operations used by the scripts are translated function by function; every
definition's doc comment names the source function it embeds.
-/

abbrev Str := List Char

/-- One character string from a Lean string literal. -/
def str (s : String) : Str := s.data

/-- The set of characters Python's `str.strip` / `str.split` / `\s` treat
as whitespace (restricted to the ASCII range; the inputs handled by the
scripts and the templates they quote are ASCII-whitespace only). -/
def pyIsSpace (c : Char) : Bool :=
  c = ' ' || c = '\t' || c = '\n' || c = '\r' || c = '\x0b' || c = '\x0c'

/-- Python `str.lstrip()`. -/
def pyLstrip (s : Str) : Str := s.dropWhile pyIsSpace

/-- Python `str.rstrip()`. -/
def pyRstrip (s : Str) : Str := (s.reverse.dropWhile pyIsSpace).reverse

/-- Python `str.strip()`. -/
def pyStrip (s : Str) : Str := pyRstrip (pyLstrip s)

/-- Whether `pat` is a prefix of `s` (character-exact). -/
def startsWithS : Str → Str → Bool
  | [], _ => true
  | _ :: _, [] => false
  | p :: ps, c :: cs => p = c && startsWithS ps cs

/-- Whether `pat` occurs as a contiguous substring of `s` (models Python
`pat in s`). -/
def occursIn (pat : Str) : Str → Bool
  | [] => startsWithS pat []
  | s@(_ :: cs) => startsWithS pat s || occursIn pat cs

theorem dropWhile_length_le (p : α → Bool) : ∀ l : List α, (l.dropWhile p).length ≤ l.length
  | [] => Nat.le_refl _
  | a :: l => by
    rw [List.dropWhile]
    split
    · exact (dropWhile_length_le p l).trans (Nat.le_succ _)
    · exact Nat.le_refl _

/-- Python `str.split()` with no argument: split on whitespace runs,
dropping empty pieces (fuel-indexed, each step consumes at least one
character). -/
def pySplitWsF : Nat → Str → List Str
  | 0, _ => []
  | _ + 1, [] => []
  | fuel + 1, c :: cs =>
    if pyIsSpace c then pySplitWsF fuel cs
    else
      (c :: cs.takeWhile (fun d => !pyIsSpace d)) ::
        pySplitWsF fuel (cs.dropWhile (fun d => !pyIsSpace d))

def pySplitWs (s : Str) : List Str := pySplitWsF s.length s

/-- Join a list of strings with a single separator character. -/
def joinChar (c : Char) : List Str → Str
  | [] => []
  | [s] => s
  | s :: rest => s ++ c :: joinChar c rest

/-- Python `" ".join(s.split())`: collapse every whitespace run to one
space and strip the ends. -/
def collapseWs (s : Str) : Str := joinChar ' ' (pySplitWs s)

/-- Single pass of Python `str.replace(pat, repl)` (non-overlapping,
left to right).  Fuel-indexed so the definition is structural; the
wrapper below supplies `s.length` as fuel, which always suffices because
each step consumes at least one character of `s`. -/
def replaceSubF (pat repl : Str) : Nat → Str → Str
  | 0, s => s
  | _ + 1, [] => []
  | fuel + 1, s@(c :: cs) =>
    if startsWithS pat s && !pat.isEmpty then
      repl ++ replaceSubF pat repl fuel (s.drop pat.length)
    else
      c :: replaceSubF pat repl fuel cs

/-- Python `str.replace(pat, repl)`. -/
def replaceSub (pat repl s : Str) : Str := replaceSubF pat repl s.length s

/-- Whether `c` is a regex word character (`\w`, ASCII): used for the
`\b` boundary in `re.sub(r'(?i)\bfile:///', '', html)`. -/
def isWordChar (c : Char) : Bool :=
  ('a' ≤ c && c ≤ 'z') || ('A' ≤ c && c ≤ 'Z') || ('0' ≤ c && c ≤ '9') || c = '_'

/-- Whether `s` starts with `file:///`, case-insensitively in the four
letters — the `(?i)file:///` literal of the regex. -/
def fileSchemeAt : Str → Bool
  | c1 :: c2 :: c3 :: c4 :: ':' :: '/' :: '/' :: '/' :: _ =>
    (c1 = 'f' || c1 = 'F') && (c2 = 'i' || c2 = 'I') &&
      (c3 = 'l' || c3 = 'L') && (c4 = 'e' || c4 = 'E')
  | _ => false

/-- Models `re.sub(r'(?i)\bfile:///', '', html)` from `fix_asset_paths` /
`_fix_asset_paths`: delete every occurrence of `file:///`
(case-insensitively) that starts at the beginning of the string or right
after a non-word character.  `prevIsWord` records whether the preceding
character of the original string was a word character. -/
def fileSchemeSubF : Nat → Bool → Str → Str
  | 0, _, s => s
  | _ + 1, _, [] => []
  | fuel + 1, prevIsWord, s@(c :: cs) =>
    if !prevIsWord && fileSchemeAt s then
      fileSchemeSubF fuel false (s.drop 8)
    else
      c :: fileSchemeSubF fuel (isWordChar c) cs

/-- `re.sub(r'(?i)\bfile:///', '', html)`. -/
def fileSchemeSub (s : Str) : Str := fileSchemeSubF s.length false s

/-- `fix_asset_paths` from generate_serp_html.py (and
generate_aio_as_serp_html.py): rename saved-page asset folders and strip
`file:///` prefixes.  Note the second `replace` looks for `serp_files/`
in the output of the first, which has already rewritten every
`_files/` occurrence. -/
def fix_asset_paths (html : Str) : Str :=
  let h1 := replaceSub (str "_files/") (str "html_asset_files/") html
  let h2 := replaceSub (str "serp_files/") (str "html_asset_files/") h1
  fileSchemeSub h2

/-- `_fix_asset_paths` from generate_aio_html.py: same as
`fix_asset_paths` but without the (dead) `serp_files/` pass. -/
def aio_fix_asset_paths (html : Str) : Str :=
  fileSchemeSub (replaceSub (str "_files/") (str "html_asset_files/") html)

/-! ## Snippet condensation (`table_blob_to_googleish_snippet`) -/

/-- Models one maximal-run replacement pass of
`re.sub(r"\s{2,}", " ", s)`: every run of two or more whitespace
characters becomes a single space; an isolated whitespace character is
kept as is. -/
def collapseRunsF : Nat → Str → Str
  | 0, s => s
  | _ + 1, [] => []
  | fuel + 1, c :: cs =>
    if pyIsSpace c && (match cs with | d :: _ => pyIsSpace d | [] => false) then
      ' ' :: collapseRunsF fuel (cs.dropWhile pyIsSpace)
    else
      c :: collapseRunsF fuel cs

/-- `re.sub(r"\s{2,}", " ", s)`. -/
def collapseRuns (s : Str) : Str := collapseRunsF s.length s

/-- First pattern of `pats` matching at the head of `s` (regex
alternation order). -/
def firstMatch (pats : List Str) (s : Str) : Option Str :=
  pats.find? (fun p => startsWithS p s)

/-- Models `re.sub(r"\bP1:\s*|\bP2:\s*", "", s)`-style marker deletion
(`re.sub(r"\bTable_(title|content):\s*", "", s)` and
`re.sub(r"\b(header|row):\s*", "", s)` in
`table_blob_to_googleish_snippet`): each occurrence of a pattern that
starts at a word boundary is removed together with the whitespace run
following it.  `prev` records whether the previous character of the
original string was a word character. -/
def markerSubF (pats : List Str) : Nat → Bool → Str → Str
  | 0, _, s => s
  | _ + 1, _, [] => []
  | fuel + 1, prev, s@(c :: cs) =>
    match (if prev then none else firstMatch pats s) with
    | some p => markerSubF pats fuel false ((s.drop p.length).dropWhile pyIsSpace)
    | none => c :: markerSubF pats fuel (isWordChar c) cs

def markerSub (pats : List Str) (s : Str) : Str := markerSubF pats s.length false s

/-- Suffix of `s` just after the first occurrence of `Table_title:`
(the leftmost start of `re.search(r"Table_title:\s*...", s)`). -/
def titleAfter : Str → Option Str
  | [] => none
  | s@(_ :: cs) =>
    if startsWithS (str "Table_title:") s then some (s.drop 12) else titleAfter cs

/-- The lookahead `(?=\s*Table_content:|\s*$)` of the title regex. -/
def titleLookOk (u : Str) : Bool :=
  let v := u.dropWhile pyIsSpace
  startsWithS (str "Table_content:") v || v.isEmpty

/-- Lazy capture `(.*?)` up to the first position where `look` holds
(the lookahead can always be satisfied at the end of the string for the
patterns used here, matching the regex engine's behaviour). -/
def lazyCapture (look : Str → Bool) : Str → Str
  | [] => []
  | c :: cs => if look (c :: cs) then [] else c :: lazyCapture look cs

/-- `(mt.group(1).strip() if mt else "").strip()` for
`mt = re.search(r"Table_title:\s*(.*?)(?=\s*Table_content:|\s*$)", s)`. -/
def extractTitle (s : Str) : Str :=
  match titleAfter s with
  | none => []
  | some rest => pyStrip (lazyCapture titleLookOk (rest.dropWhile pyIsSpace))

/-- The lookahead `\s*(?=row:|$)` after the closing pipe of the row
regex. -/
def rowEndOk (u : Str) : Bool :=
  let v := u.dropWhile pyIsSpace
  startsWithS (str "row:") v || v.isEmpty

/-- Lazy scan for the closing `\|` of `(\|.*?\|)` whose continuation
satisfies `rowEndOk`; returns the captured text through that pipe. -/
def rowBody : Str → Option Str
  | [] => none
  | c :: cs =>
    if c = '|' && rowEndOk cs then some ['|']
    else
      match rowBody cs with
      | some b => some (c :: b)
      | none => none

/-- Attempt of the row regex directly after a `row:` literal: skip the
greedy `\s*`, require an opening pipe, then find the lazy closing
pipe. -/
def rowAt (afterMarker : Str) : Option Str :=
  match afterMarker.dropWhile pyIsSpace with
  | '|' :: rest => (rowBody rest).map (fun b => '|' :: b)
  | _ => none

/-- `mr = re.search(r"row:\s*(\|.*?\|)\s*(?=row:|$)", s)`, returning
`mr.group(1)`: leftmost `row:` whose continuation completes the
pattern. -/
def extractRow : Str → Option Str
  | [] => none
  | s@(_ :: cs) =>
    match (if startsWithS (str "row:") s then rowAt (s.drop 4) else none) with
    | some g => some g
    | none => extractRow cs

/-- Python `str.strip("|")`. -/
def stripPipes (s : Str) : Str :=
  ((s.dropWhile (· = '|')).reverse.dropWhile (· = '|')).reverse

/-- Python `str.split(sep)` for a one-character separator (keeps empty
pieces). -/
def splitOnChar (sep : Char) : Str → List Str
  | [] => [[]]
  | c :: cs =>
    if c = sep then [] :: splitOnChar sep cs
    else
      match splitOnChar sep cs with
      | h :: t => (c :: h) :: t
      | [] => [[c]]

/-- `[k.strip() for k in cell.split(":") if k.strip()]`. -/
def colonParts (s : Str) : List Str :=
  ((splitOnChar ':' s).map pyStrip).filter (· ≠ [])

/-- `for k, v in zip(keys, vals): parts += [k, v]`. -/
def zipKV : List Str → List Str → List Str
  | k :: ks, v :: vs => k :: v :: zipKV ks vs
  | _, _ => []

/-- The truncation step shared by both return points of
`table_blob_to_googleish_snippet`:
`(out[: max_chars - 1].rstrip() + "…") if len(out) > max_chars else out`. -/
def snippetTruncate (maxChars : Nat) (out : Str) : Str :=
  if out.length > maxChars then pyRstrip (out.take (maxChars - 1)) ++ ['…'] else out

/-- `cells = [c.strip() for c in grp.strip().strip("|").split("|") if c.strip()]`. -/
def rowCells (grp : Str) : List Str :=
  ((splitOnChar '|' (stripPipes (pyStrip grp))).map pyStrip).filter (· ≠ [])

/-- The `parts` list built in the row branch of
`table_blob_to_googleish_snippet`. -/
def rowParts (title : Str) (cells : List Str) : List Str :=
  (if title.isEmpty then [] else [title]) ++
    (match cells with
     | [c0, c1] =>
       if c0.contains ':' && c1.contains ':' then
         zipKV (colonParts c0) (colonParts c1)
       else [joinChar ' ' [c0, c1]]
     | _ => [joinChar ' ' cells])

/-- The condensed text `out` of `table_blob_to_googleish_snippet` just
before its truncation step. -/
def snippetCore (s : Str) : Str :=
  if s.isEmpty then [] else
  let s1 := collapseWs s
  let title := extractTitle s1
  match extractRow s1 with
  | none =>
    let o1 := markerSub [str "Table_title:", str "Table_content:"] s1
    let o2 := (markerSub [str "header:", str "row:"] o1).map
      (fun c => if c = '|' then ' ' else c)
    let o3 := pyStrip (collapseRuns o2)
    if title.isEmpty then o3 else pyStrip (title ++ ' ' :: o3)
  | some grp =>
    collapseRuns (pyStrip (joinChar ' ' (rowParts title (rowCells grp))))

/-- `table_blob_to_googleish_snippet` from generate_aio_as_serp_html.py
(truncation inlined at both return points, as in the source). -/
def table_blob_to_googleish_snippet (s : Str) (maxChars : Nat) : Str :=
  if s.isEmpty then [] else
  let s1 := collapseWs s
  let title := extractTitle s1
  match extractRow s1 with
  | none =>
    let o1 := markerSub [str "Table_title:", str "Table_content:"] s1
    let o2 := (markerSub [str "header:", str "row:"] o1).map
      (fun c => if c = '|' then ' ' else c)
    let o3 := pyStrip (collapseRuns o2)
    snippetTruncate maxChars (if title.isEmpty then o3 else pyStrip (title ++ ' ' :: o3))
  | some grp =>
    snippetTruncate maxChars
      (collapseRuns (pyStrip (joinChar ' ' (rowParts title (rowCells grp)))))

theorem table_blob_factor (s : Str) (m : Nat) :
    table_blob_to_googleish_snippet s m = snippetTruncate m (snippetCore s) := by
  unfold table_blob_to_googleish_snippet snippetCore
  by_cases h : s.isEmpty
  · simp [h, snippetTruncate]
  · simp only [h, Bool.false_eq_true, if_false]
    cases extractRow (collapseWs s) <;> simp

/-! ## Line and block splitting used by `_replace_aio_overview` -/

/-- `re.split(r"\r?\n", b)`: split on newlines, an optional carriage
return glued to the newline; a lone carriage return does not split. -/
def splitLinesCR : Str → List Str
  | [] => [[]]
  | '\r' :: '\n' :: rest => [] :: splitLinesCR rest
  | '\n' :: rest => [] :: splitLinesCR rest
  | c :: cs =>
    match splitLinesCR cs with
    | h :: t => (c :: h) :: t
    | [] => [[c]]

/-- Index of the last `\n` inside a whitespace run. -/
def lastNlIdx : Str → Option Nat
  | [] => none
  | c :: cs =>
    match lastNlIdx cs with
    | some j => some (j + 1)
    | none => if c = '\n' then some 0 else none

/-- Length of the match of `\r?\n\s*\r?\n` at the head of `s`, if any.
With the greedy quantifiers resolved, the match is an initial newline
(optionally preceded by a carriage return) followed by the whitespace
run up to and including its last `\n`. -/
def sepLen (s : Str) : Option Nat :=
  match s with
  | '\r' :: '\n' :: rest =>
    (lastNlIdx (rest.takeWhile pyIsSpace)).map (fun j => 2 + j + 1)
  | '\n' :: rest =>
    (lastNlIdx (rest.takeWhile pyIsSpace)).map (fun j => 1 + j + 1)
  | _ => none

/-- `re.split(r"\r?\n\s*\r?\n", s)` (fuel-indexed scanner; each step
consumes at least one character, so `s.length` fuel suffices). -/
def splitBlocksF : Nat → Str → List Str
  | 0, s => [s]
  | _ + 1, [] => [[]]
  | fuel + 1, s@(c :: cs) =>
    match sepLen s with
    | some k => [] :: splitBlocksF fuel (s.drop k)
    | none =>
      match splitBlocksF fuel cs with
      | h :: t => (c :: h) :: t
      | [] => [[c]]

def splitBlocks (s : Str) : List Str := splitBlocksF s.length s

/-- `blocks = [b.strip() for b in re.split(r"\r?\n\s*\r?\n", aio_text.strip()) if b.strip()]`. -/
def aioBlocks (s : Str) : List Str :=
  ((splitBlocks (pyStrip s)).map pyStrip).filter (· ≠ [])

/-- `lines = [ln.strip() for ln in re.split(r"\r?\n", b) if ln.strip()]`. -/
def aioLines (b : Str) : List Str :=
  ((splitLinesCR b).map pyStrip).filter (· ≠ [])

/-! ## Document tree model -/

/-- A parsed markup node: a text node or a tagged element with an
ordered attribute list and ordered children (the BeautifulSoup tree the
scripts mutate). -/
inductive Node where
  | text : Str → Node
  | elem : Str → List (Str × Str) → List Node → Node

abbrev Attrs := List (Str × Str)

/-- Attribute lookup (`tag.get(k)` / `tag[k]`). -/
def getAttr (k : Str) : Attrs → Option Str
  | [] => none
  | (k', v) :: rest => if k' = k then some v else getAttr k rest

/-- Attribute assignment (`tag[k] = v`): replace in place if present,
else append (Python dicts preserve insertion order). -/
def setAttr (k v : Str) : Attrs → Attrs
  | [] => [(k, v)]
  | (k', v') :: rest => if k' = k then (k, v) :: rest else (k', v') :: setAttr k v rest

/-- Attribute deletion (`del tag[k]`); removes every binding of `k`
(attribute mappings have unique keys, so at most one). -/
def delAttr (k : Str) (a : Attrs) : Attrs := a.filter (fun p => p.1 ≠ k)

def Node.children : Node → List Node
  | .text _ => []
  | .elem _ _ cs => cs

def Node.attrsOf : Node → Attrs
  | .text _ => []
  | .elem _ a _ => a

/-- Predicate: element with the given tag name. -/
def tagIs (t : Str) : Node → Bool
  | .text _ => false
  | .elem t' _ _ => t' = t

/-- Attribute of an element node. -/
def getAttrN (k : Str) : Node → Option Str
  | .text _ => none
  | .elem _ a _ => getAttr k a

/-- The whitespace-separated class tokens of an element (BeautifulSoup
treats `class` as a multi-valued attribute). -/
def classTokens (n : Node) : List Str :=
  match getAttrN (str "class") n with
  | some v => pySplitWs v
  | none => []

/-- CSS class selector `.tok`: some class token equals `tok`. -/
def hasClassToken (tok : Str) (n : Node) : Bool :=
  (classTokens n).contains tok

/-- The `class_=lambda c: c and "X" in c` idiom: some class token
contains `sub` as a substring. -/
def hasClassSubstr (sub : Str) (n : Node) : Bool :=
  (classTokens n).any (fun t => occursIn sub t)

/-- Replace an element's children (`tag.clear()` followed by appends). -/
def setChildrenTo (ns : List Node) : Node → Node
  | .text s => .text s
  | .elem t a _ => .elem t a ns

/-- Set an attribute on an element node. -/
def setAttrN (k v : Str) : Node → Node
  | .text s => .text s
  | .elem t a cs => .elem t (setAttr k v a) cs

mutual

/-- First node (itself or a descendant, pre-order = document order)
satisfying `p`. -/
def findN (p : Node → Bool) (n : Node) : Option Node :=
  if p n then some n else
    match n with
    | .text _ => none
    | .elem _ _ cs => findL p cs

def findL (p : Node → Bool) : List Node → Option Node
  | [] => none
  | n :: ns =>
    match findN p n with
    | some r => some r
    | none => findL p ns

end

/-- `tag.find(...)` / `tag.select_one(...)`: first matching descendant
(the tag itself is not considered). -/
def findDesc (p : Node → Bool) (n : Node) : Option Node := findL p n.children

mutual

/-- Apply `f` to the first node (itself or a descendant, document
order) satisfying `p`; the Bool records whether a match was found. -/
def updN (p : Node → Bool) (f : Node → Node) (n : Node) : Node × Bool :=
  if p n then (f n, true) else
    match n with
    | .text s => (.text s, false)
    | .elem t a cs =>
      let r := updL p f cs
      (.elem t a r.1, r.2)

def updL (p : Node → Bool) (f : Node → Node) : List Node → List Node × Bool
  | [] => ([], false)
  | n :: ns =>
    let rh := updN p f n
    if rh.2 then (rh.1 :: ns, true)
    else
      let rt := updL p f ns
      (n :: rt.1, rt.2)

end

/-- Mutate the first matching descendant in place (`select_one` /
`find` followed by mutation through the reference); no-op when
absent. -/
def updDesc (p : Node → Bool) (f : Node → Node) (n : Node) : Node :=
  setChildrenTo (updL p f n.children).1 n

mutual

/-- Scoped search for CSS descendant selectors such as
`div.yuRUbf a`: first node satisfying `p` that has a (strict) ancestor
satisfying `anc` inside the searched tag. -/
def findScopedN (anc p : Node → Bool) (inside : Bool) (n : Node) : Option Node :=
  if inside && p n then some n else
    match n with
    | .text _ => none
    | .elem _ _ cs => findScopedL anc p (inside || anc n) cs

def findScopedL (anc p : Node → Bool) (inside : Bool) : List Node → Option Node
  | [] => none
  | n :: ns =>
    match findScopedN anc p inside n with
    | some r => some r
    | none => findScopedL anc p inside ns

end

mutual

/-- Scoped first-match update, mirroring `findScopedN`. -/
def updScopedN (anc p : Node → Bool) (f : Node → Node) (inside : Bool) (n : Node) :
    Node × Bool :=
  if inside && p n then (f n, true) else
    match n with
    | .text s => (.text s, false)
    | .elem t a cs =>
      let r := updScopedL anc p f (inside || anc n) cs
      (.elem t a r.1, r.2)

def updScopedL (anc p : Node → Bool) (f : Node → Node) (inside : Bool) :
    List Node → List Node × Bool
  | [] => ([], false)
  | n :: ns =>
    let rh := updScopedN anc p f inside n
    if rh.2 then (rh.1 :: ns, true)
    else
      let rt := updScopedL anc p f inside ns
      (n :: rt.1, rt.2)

end

/-- `result.select_one("anc p")` followed by mutation; no-op when
absent. -/
def updScopedDesc (anc p : Node → Bool) (f : Node → Node) (n : Node) : Node :=
  setChildrenTo (updScopedL anc p f false n.children).1 n

mutual

/-- Apply the attribute transformation `g` (given the tag name) to
every element of the tree (the per-element loops of `sanitize` /
`_disable_all_links`). -/
def mapAttrsN (g : Str → Attrs → Attrs) : Node → Node
  | .text s => .text s
  | .elem t a cs => .elem t (g t a) (mapAttrsL g cs)

def mapAttrsL (g : Str → Attrs → Attrs) : List Node → List Node
  | [] => []
  | n :: ns => mapAttrsN g n :: mapAttrsL g ns

end

/-- `tag.find_all(...)` loops mutate descendants only, not the tag
itself. -/
def mapAttrsDesc (g : Str → Attrs → Attrs) (n : Node) : Node :=
  setChildrenTo (mapAttrsL g n.children) n

mutual

/-- Replace every outermost descendant matching `p` by `f` of it
(`for node in result.select(...): node.clear(); node.append(...)`;
matches are never nested for the selectors used). -/
def mapMatchN (p : Node → Bool) (f : Node → Node) (n : Node) : Node :=
  if p n then f n else
    match n with
    | .text s => .text s
    | .elem t a cs => .elem t a (mapMatchL p f cs)

def mapMatchL (p : Node → Bool) (f : Node → Node) : List Node → List Node
  | [] => []
  | n :: ns => mapMatchN p f n :: mapMatchL p f ns

end

def mapMatchDesc (p : Node → Bool) (f : Node → Node) (n : Node) : Node :=
  setChildrenTo (mapMatchL p f n.children) n

mutual

/-- All text-node strings of a tree, in document order
(`tag.strings`). -/
def textsN : Node → List Str
  | .text s => [s]
  | .elem _ _ cs => textsL cs

def textsL : List Node → List Str
  | [] => []
  | n :: ns => textsN n ++ textsL ns

end

/-- Concatenation, in document order, of all text content below a list
of nodes: the non-marker text of rendered markup. -/
def textConcatL (ns : List Node) : Str := (textsL ns).foldr (· ++ ·) []

/-- `[s for s in card.stripped_strings]`. -/
def strippedStrings (card : Node) : List Str :=
  ((textsL card.children).map pyStrip).filter (· ≠ [])

/-! ## Sanitizer passes -/

/-- The instrumentation attributes stripped by `sanitize` /
`_sanitize_card`. -/
def jsAttrs : List Str :=
  [str "data-ved", str "jsaction", str "jscontroller", str "jsname",
   str "jsmodel", str "jsuid"]

/-- The inner loop `for attr in (...): if t.has_attr(attr): del t[attr]`. -/
def delAll (ks : List Str) (a : Attrs) : Attrs :=
  ks.foldl (fun acc k => delAttr k acc) a

/-- `sanitize` from generate_serp_html.py (identical to
`_sanitize_card` in generate_aio_html.py): first pass deletes `ping`
from every `a` descendant, second pass deletes the instrumentation
attributes from every element descendant. -/
def sanitize (result : Node) : Node :=
  let r1 := mapAttrsDesc (fun t a => if t = str "a" then delAttr (str "ping") a else a) result
  mapAttrsDesc (fun _ a => delAll jsAttrs a) r1

/-- Whether the stripped style value ends with `;`
(`style.strip().endswith(";")`). -/
def endsSemi (style : Str) : Bool :=
  match (pyStrip style).getLast? with
  | some ';' => true
  | _ => false

/-- The style-appending step of `_disable_all_links`: fetch the current
style, terminate it with `;` when needed, append the
pointer-interaction-disabling declarations. -/
def appendDisableStyle (a : Attrs) : Attrs :=
  let style := (getAttr (str "style") a).getD []
  let style := if !style.isEmpty && !endsSemi style then style ++ [';'] else style
  setAttr (str "style") (style ++ str "pointer-events:none; cursor:default;") a

/-- `_disable_all_links` from generate_aio_as_serp_html.py: for every
`a` element, delete `href`, `target` and `rel`, then append the
disabling styling. -/
def disable_all_links (soup : Node) : Node :=
  mapAttrsDesc
    (fun t a =>
      if t = str "a" then
        appendDisableStyle (delAttr (str "rel") (delAttr (str "target") (delAttr (str "href") a)))
      else a)
    soup

/-! ## URL host extraction -/

/-- Valid URL scheme per `urllib.parse`: a letter followed by letters,
digits, `+`, `-` or `.`. -/
def isValidScheme : Str → Bool
  | [] => false
  | c :: cs => c.isAlpha && cs.all (fun d => d.isAlphanum || d = '+' || d = '-' || d = '.')

/-- Split at the first `:`. -/
def firstColonSplit : Str → Option (Str × Str)
  | [] => none
  | ':' :: cs => some ([], cs)
  | c :: cs => (firstColonSplit cs).map (fun p => (c :: p.1, p.2))

/-- `urlparse(url).netloc`: strip a valid scheme, then, if the
remainder starts with `//`, take characters up to the next `/`, `?` or
`#`.  (The `try`/`except` around the calls in the scripts only fires
for malformed IPv6 bracket hosts, which the embedding does not
model.) -/
def urlNetloc (url : Str) : Str :=
  let rest :=
    match firstColonSplit url with
    | some (pre, post) => if isValidScheme pre then post else url
    | none => url
  match rest with
  | '/' :: '/' :: r => r.takeWhile (fun c => c ≠ '/' && c ≠ '?' && c ≠ '#')
  | _ => []

/-- `_domain` from generate_serp_html.py (and
generate_aio_as_serp_html.py): the netloc with a leading literal
`www.` stripped.  Note: no lower-casing (`urlparse(...).netloc`
preserves case, unlike the unused `_domain_and_path`, which calls
`.lower()`). -/
def pyDomain (url : Str) : Str :=
  let d := urlNetloc url
  if startsWithS (str "www.") d then d.drop 4 else d

/-! ## Query binding -/

/-- `re.sub(r"^.*(?= - Google Search$)", query, title_string)`: when the
string ends with the literal suffix and the part before it contains no
newline (`.` does not cross newlines), the part before the suffix is
replaced by the query. -/
def googleTitleSub (query s : Str) : Str :=
  let suf := str " - Google Search"
  if startsWithS suf.reverse s.reverse && !(s.take (s.length - suf.length)).contains '\n' then
    query ++ suf
  else s

/-- `set_search_query` from generate_serp_html.py (identical to
`_replace_search_bar_query` in generate_aio_html.py): bind the query
into the `textarea#APjFqb` (value attribute and text content) and
rewrite the title when it has a single non-empty string child. -/
def set_search_query (soup : Node) (query : Str) : Node :=
  let s1 := updDesc
    (fun n => tagIs (str "textarea") n && getAttrN (str "id") n == some (str "APjFqb"))
    (fun n => setChildrenTo [Node.text query] (setAttrN (str "value") query n)) soup
  updDesc (fun n => tagIs (str "title") n)
    (fun n =>
      match n with
      | .elem t a [Node.text s] =>
        if s.isEmpty then .elem t a [.text s]
        else .elem t a [.text (googleTitleSub query s)]
      | m => m)
    s1

/-! ## Source rows and rank ordering -/

/-- One row of the per-record sources table (`aio_sources.csv` /
`serps.csv` columns used by the renderers); a missing `rank` cell is
`none`. -/
structure SourceRow where
  source_url : Str
  source_title : Str
  source_text : Str
  source_name : Str
  root_domain : Str
  rank : Option Nat
deriving DecidableEq, Repr

/-- The `ascending=True, na_position="last"` key order of
`DataFrame.sort_values`: absent ranks sort after every present one. -/
def rankLE (a b : Option Nat) : Bool :=
  match a, b with
  | none, none => true
  | none, some _ => false
  | some _, none => true
  | some x, some y => x ≤ y

/-- Stable insertion of a row in front of the first strictly larger
key. -/
def insertRank (x : SourceRow) : List SourceRow → List SourceRow
  | [] => [x]
  | y :: ys => if rankLE x.rank y.rank then x :: y :: ys else y :: insertRank x ys

/-- `sources_df.sort_values(sort_cols, ascending=True,
na_position="last")`, modelled as a stable sort on the rank key.
(pandas guarantees this order for the values and keeps absent-rank rows
in input order; the relative order of equal present ranks is delegated
to numpy's default `quicksort` and is modelled here as stable — see the
rank-stability claim, which is tracked separately.)  When no rank
column exists the frame is not sorted, which coincides with this
function when every `rank` is `none`. -/
def sortByRank (l : List SourceRow) : List SourceRow := l.foldr insertRank []

/-- The per-row field extraction shared by `render_serp` and
`_replace_sources`: stripped url/title/text, and
`source_name or root_domain` (both stripped). -/
def rowFields (r : SourceRow) : Str × Str × Str × Str :=
  (pyStrip r.source_url, pyStrip r.source_title, pyStrip r.source_text,
    if (pyStrip r.source_name).isEmpty then pyStrip r.root_domain
    else pyStrip r.source_name)

/-! ## Structural anchor predicates -/

/-- `div.yuRUbf`. -/
def yuPred (n : Node) : Bool := tagIs (str "div") n && hasClassToken (str "yuRUbf") n

/-- Any `a` element. -/
def aTagPred (n : Node) : Bool := tagIs (str "a") n

def h3Pred (n : Node) : Bool := tagIs (str "h3") n

/-- `span.VuuXrf`. -/
def vuuPred (n : Node) : Bool := tagIs (str "span") n && hasClassToken (str "VuuXrf") n

/-- `div.TbwUpd`. -/
def tbwPred (n : Node) : Bool := tagIs (str "div") n && hasClassToken (str "TbwUpd") n

def citePred (n : Node) : Bool := tagIs (str "cite") n

/-- `div.VwiC3b`. -/
def snipPred (n : Node) : Bool := tagIs (str "div") n && hasClassToken (str "VwiC3b") n

/-- `div#rso`: the results container. -/
def rsoPred (n : Node) : Bool :=
  tagIs (str "div") n && getAttrN (str "id") n == some (str "rso")

/-- `div.MjjYud` containing a `div.yuRUbf` descendant: the repeatable
organic-result unit matched by `find_first_organic_result`. -/
def organicPred (n : Node) : Bool :=
  tagIs (str "div") n && hasClassToken (str "MjjYud") n && (findDesc yuPred n).isSome

/-- `soup.find(id="eKIzJc")`: the AI Overview container (any tag). -/
def contPred (n : Node) : Bool := getAttrN (str "id") n == some (str "eKIzJc")

/-- `div.mZJni.Dn7Fzd`: the AI Overview body. -/
def bodyPred (n : Node) : Bool :=
  tagIs (str "div") n && hasClassToken (str "mZJni") n && hasClassToken (str "Dn7Fzd") n

/-- `ul` whose class matches `lambda c: c and "EJw9bc" in c`: the
sources container. -/
def ulPred (n : Node) : Bool := tagIs (str "ul") n && hasClassSubstr (str "EJw9bc") n

/-- `div` whose class contains `MFrAxb`: the source card template. -/
def cardPred (n : Node) : Bool := tagIs (str "div") n && hasClassSubstr (str "MFrAxb") n

/-- `a` whose class contains `NDNGvf`: the main link of a source
card. -/
def aMainPred (n : Node) : Bool := tagIs (str "a") n && hasClassSubstr (str "NDNGvf") n

/-! ## Search-result binding (`fill_one_result`, `render_serp`) -/

/-- `display_site = (source_name or "").strip() or _domain(url)` from
`fill_one_result`. -/
def displaySite (source_name url : Str) : Str :=
  if (pyStrip source_name).isEmpty then pyDomain url else pyStrip source_name

/-- `fill_one_result` from generate_serp_html.py: bind one source into
a cloned organic-result unit.  The link target is written only when the
URL is non-empty; the title only when non-empty; display-site text goes
into every `span.VuuXrf`, the first `div.TbwUpd` and the first `cite`
(selections run on the tree as already mutated by the earlier steps, as
in the source); the stripped snippet into the first `div.VwiC3b`; then
the clone is sanitized. -/
def fill_one_result (result : Node) (url title snippet source_name : Str) : Node :=
  let display_site := displaySite source_name url
  let r1 := if url.isEmpty then result
    else updScopedDesc yuPred aTagPred (setAttrN (str "href") url) result
  let r2 := if title.isEmpty then r1
    else updScopedDesc yuPred h3Pred (setChildrenTo [Node.text title]) r1
  let r3 := mapMatchDesc vuuPred (setChildrenTo [Node.text display_site]) r2
  let r4 := updDesc tbwPred (setChildrenTo [Node.text display_site]) r3
  let r5 := updDesc citePred (setChildrenTo [Node.text display_site]) r4
  let r6 := updDesc snipPred (setChildrenTo [Node.text (pyStrip snippet)]) r5
  sanitize r6

/-- `find_first_organic_result`: first `div.MjjYud` descendant of the
results container that contains a `div.yuRUbf`. -/
def find_first_organic_result (rso : Node) : Option Node := findDesc organicPred rso

/-- `render_serp` from generate_serp_html.py.  The returned document is
what `out_path.write_text(str(soup))` serializes; the write only
happens after every anchor check has succeeded, which the `Except`
result captures: an `error` value is the raised `RuntimeError`, and no
output document exists in that case. -/
def render_serp (templ : Node) (query : Str) (rows : List SourceRow) : Except Str Node :=
  let soup := set_search_query templ query
  match findDesc rsoPred soup with
  | none => .error (str "Could not locate results container div#rso in serp_template.html")
  | some rso =>
    match find_first_organic_result rso with
    | none => .error
        (str "Could not find an organic result block to clone (div.MjjYud containing div.yuRUbf).")
    | some unit =>
      let blocks := ((sortByRank rows).take 10).map (fun r =>
        let f := rowFields r
        fill_one_result unit f.1 f.2.1 f.2.2.1 f.2.2.2)
      .ok (updDesc rsoPred (setChildrenTo blocks) soup)

/-! ## AI Overview rendering (`generate_aio_html.py`) -/

/-- The children of a rendered paragraph: the lines of a block joined
by `br` elements (`if i: p.append(soup.new_tag("br"))`).  The
`html.unescape` / fragment-parse / style-forcing pipeline applied to
each line is the identity on lines containing no `&`, `<` or carriage
return (no entity reference, no markup, nothing for the parser to
normalize), which is the domain the accompanying theorems quantify
over; each such line contributes a single text node. -/
def lineNodesTail : List Str → List Node
  | [] => []
  | ln :: rest => Node.elem (str "br") [] [] :: Node.text ln :: lineNodesTail rest

def lineNodes : List Str → List Node
  | [] => []
  | l :: rest => Node.text l :: lineNodesTail rest

/-- One block of `_replace_aio_overview`: a single short line ending in
a colon becomes a bold header `div`, anything else a paragraph with
`br`-joined lines. -/
def renderBlock (b : Str) : Node :=
  match aioLines b with
  | [l] =>
    if l.getLast? == some ':' && l.length ≤ 80 then
      Node.elem (str "div") [(str "class", str "T286Pc")]
        [Node.elem (str "strong") [] [Node.text l]]
    else Node.elem (str "p") [(str "class", str "T286Pc")] (lineNodes [l])
  | ls => Node.elem (str "p") [(str "class", str "T286Pc")] (lineNodes ls)

/-- The placeholder paragraph appended when no answer text is
available. -/
def placeholderP : Node :=
  Node.elem (str "p") [(str "class", str "T286Pc")]
    [Node.text (str "(No AI Overview text available for this row.)")]

/-- The children the AI Overview body receives: the placeholder when
the text is absent (not a string) or blank, else the rendered
blocks. -/
def renderAioNodes (aio_text : Option Str) : List Node :=
  match aio_text with
  | none => [placeholderP]
  | some s => if (pyStrip s).isEmpty then [placeholderP] else (aioBlocks s).map renderBlock

/-- `_replace_aio_overview` from generate_aio_html.py: locate the body
(`div.mZJni.Dn7Fzd`) or raise; clear it and fill it with the rendered
answer nodes. -/
def replace_aio_overview (aio_container : Node) (aio_text : Option Str) :
    Except Str Node :=
  match findDesc bodyPred aio_container with
  | none => .error (str "Could not locate AI Overview body (div.mZJni.Dn7Fzd) in the template.")
  | some _ =>
    .ok (updDesc bodyPred (setChildrenTo (renderAioNodes aio_text)) aio_container)

/-- `_replace_first_text`: replace the first text node equal to `old`
(exact, unstripped comparison) with `new`. -/
def textEqPred (old : Str) : Node → Bool
  | .text s => decide (s = old)
  | _ => false

def replaceFirstText (old new : Str) (card : Node) : Node :=
  updDesc (textEqPred old) (fun _ => Node.text new) card

/-- `_build_card_from_template`: deep-copy (value semantics), sanitize,
set the main link's `href` when the URL is non-empty, then replace the
first three stripped strings by title, stripped snippet and source
name, each falling back to the existing text when empty. -/
def build_card (template_card : Node) (url title snippet source_name : Str) : Node :=
  let card := sanitize template_card
  let card := if url.isEmpty then card
    else updDesc aMainPred (setAttrN (str "href") url) card
  match strippedStrings card with
  | [] => card
  | v0 :: vrest =>
    let card := replaceFirstText v0 (if title.isEmpty then v0 else title) card
    match vrest with
    | [] => card
    | v1 :: vrest2 =>
      let card := replaceFirstText v1
        (if (pyStrip snippet).isEmpty then v1 else pyStrip snippet) card
      match vrest2 with
      | [] => card
      | v2 :: _ =>
        replaceFirstText v2 (if source_name.isEmpty then v2 else source_name) card

/-- `_replace_sources` from generate_aio_html.py: locate the sources
`ul` and the card template or raise; sort rows by rank, keep the first
8, and replace the `ul` by a shallow copy holding one `li.jydCyd` per
selected row. -/
def replace_sources (aio_container : Node) (rows : List SourceRow) : Except Str Node :=
  match findDesc ulPred aio_container with
  | none => .error
      (str "Could not locate the Sources container (<ul class='EJw9bc'>) in the template.")
  | some _ =>
    match findDesc cardPred aio_container with
    | none => .error (str "Could not locate a source card template (div.MFrAxb) in the template.")
    | some template_card =>
      let lis := ((sortByRank rows).take 8).map (fun r =>
        let f := rowFields r
        Node.elem (str "li") [(str "class", str "jydCyd")]
          [build_card template_card f.1 f.2.1 f.2.2.1 f.2.2.2])
      .ok (updDesc ulPred (setChildrenTo lis) aio_container)

/-- `render_one` from generate_aio_html.py.  The source mutates the
container found inside `soup` in place; here the transformed container
is written back over the first `id="eKIzJc"` match, which is the node
that was found.  As in `render_serp`, the `ok` value is the document
that `out_path.write_text` serializes and an `error` is the raised
`RuntimeError`, before which no output is produced. -/
def render_one (templ : Node) (aio_text : Option Str) (rows : List SourceRow)
    (query : Str) : Except Str Node :=
  let soup := set_search_query templ query
  match findDesc contPred soup with
  | none => .error
      (str "Could not locate AI Overview container: expected an element with id='eKIzJc'.")
  | some cont => do
    let cont2 ← replace_aio_overview cont aio_text
    let cont3 ← replace_sources cont2 rows
    .ok (updDesc contPred (fun _ => cont3) soup)

/-! ## General lemmas about the tree model -/

theorem node_ind {P : Node → Prop} {Q : List Node → Prop}
    (ht : ∀ s, P (Node.text s))
    (he : ∀ t a cs, Q cs → P (Node.elem t a cs))
    (hn : Q [])
    (hc : ∀ n ns, P n → Q ns → Q (n :: ns)) :
    ∀ n, P n :=
  fun n => @Node.rec P Q ht he hn hc n

theorem node_ind_both {P : Node → Prop} {Q : List Node → Prop}
    (ht : ∀ s, P (Node.text s))
    (he : ∀ t a cs, Q cs → P (Node.elem t a cs))
    (hn : Q [])
    (hc : ∀ n ns, P n → Q ns → Q (n :: ns)) :
    (∀ n, P n) ∧ (∀ l, Q l) :=
  ⟨node_ind ht he hn hc,
   fun l => List.rec hn (fun n ns ihl => hc n ns (node_ind ht he hn hc n) ihl) l⟩

theorem getAttr_setAttr_ne (k k' v : Str) (h : k ≠ k') :
    ∀ a : Attrs, getAttr k (setAttr k' v a) = getAttr k a := by
  intro a
  induction a with
  | nil => simp [setAttr, getAttr, Ne.symm h]
  | cons p rest ih =>
    by_cases hk : p.1 = k'
    · have hpk : p.1 ≠ k := by rw [hk]; exact Ne.symm h
      simp [setAttr, hk, getAttr, Ne.symm h, hpk]
    · simp [setAttr, hk, getAttr, ih]

/-- The found-flag of the first-match update is exactly the success of
the first-match search. -/
theorem upd_found_iff (p : Node → Bool) (f : Node → Node) :
    (∀ n, (updN p f n).2 = (findN p n).isSome) ∧
    (∀ l, (updL p f l).2 = (findL p l).isSome) := by
  refine node_ind_both ?_ ?_ ?_ ?_
  · intro s
    by_cases h : p (Node.text s) = true <;> simp [updN, findN, h]
  · intro t a cs ih
    by_cases h : p (Node.elem t a cs) = true <;> simp [updN, findN, h, ih]
  · simp [updL, findL]
  · intro n ns ihn ihl
    by_cases h : (updN p f n).2 = true
    · have : (findN p n).isSome = true := ihn ▸ h
      rcases Option.isSome_iff_exists.mp this with ⟨r, hr⟩
      simp [updL, findL, h, hr]
    · have h' : (updN p f n).2 = false := Bool.not_eq_true _ ▸ h
      have : (findN p n).isSome = false := ihn ▸ h'
      have hnone : findN p n = none := Option.not_isSome_iff_eq_none.mp (by simp [this])
      simp [updL, findL, h', hnone, ihl]

/-- A node satisfying `p` is its own first match. -/
theorem findN_of_p {p : Node → Bool} {n : Node} (h : p n = true) : findN p n = some n := by
  cases n <;> simp [findN, h]

/-- Looking up the first `p`-match after the first-match update returns
the transformed node, provided `f` preserves `p` and `p` ignores
children. -/
theorem find_upd (p : Node → Bool) (f : Node → Node)
    (hf : ∀ n, p n = true → p (f n) = true)
    (hc : ∀ t a cs cs', p (.elem t a cs) = p (.elem t a cs')) :
    (∀ n, findN p (updN p f n).1 = (findN p n).map f) ∧
    (∀ l, findL p (updL p f l).1 = (findL p l).map f) := by
  refine node_ind_both ?_ ?_ ?_ ?_
  · intro s
    by_cases h : p (Node.text s) = true
    · simp [updN, h, findN_of_p h, findN_of_p (hf _ h)]
    · simp [updN, findN, Bool.not_eq_true _ ▸ h]
  · intro t a cs ih
    by_cases h : p (Node.elem t a cs) = true
    · simp [updN, h, findN_of_p h, findN_of_p (hf _ h)]
    · have h' : p (Node.elem t a cs) = false := Bool.not_eq_true _ ▸ h
      have hcs : p (Node.elem t a (updL p f cs).1) = false := (hc t a _ _).symm.trans h'
      simp [updN, findN, h', hcs, ih]
  · simp [updL, findL]
  · intro n ns ihn ihl
    by_cases h : (updN p f n).2 = true
    · have hs : (findN p n).isSome = true := ((upd_found_iff p f).1 n) ▸ h
      rcases Option.isSome_iff_exists.mp hs with ⟨r, hr⟩
      have hfr : findN p (updN p f n).1 = some (f r) := by rw [ihn, hr]; rfl
      simp [updL, findL, h, hr, hfr]
    · have h' : (updN p f n).2 = false := Bool.not_eq_true _ ▸ h
      have hs : (findN p n).isSome = false := ((upd_found_iff p f).1 n) ▸ h'
      have hnone : findN p n = none := Option.not_isSome_iff_eq_none.mp (by simp [hs])
      have hfn : findN p (updN p f n).1 = none := by rw [ihn, hnone]; rfl
      simp [updL, findL, h', hnone, hfn, ihl]

/-- If a tree has no `p'`-match anywhere, neither has any node found
inside it. -/
theorem find_sub_none (p' q : Node → Bool) :
    (∀ n r, findN p' n = none → findN q n = some r → findN p' r = none) ∧
    (∀ l r, findL p' l = none → findL q l = some r → findN p' r = none) := by
  refine node_ind_both ?_ ?_ ?_ ?_
  · intro s r hno hq
    by_cases h : q (Node.text s) = true
    · rw [findN_of_p h] at hq
      exact (Option.some_inj.mp hq) ▸ hno
    · simp [findN, Bool.not_eq_true _ ▸ h] at hq
  · intro t a cs ih r hno hq
    by_cases h : q (Node.elem t a cs) = true
    · rw [findN_of_p h] at hq
      exact (Option.some_inj.mp hq) ▸ hno
    · have hq' : findL q cs = some r := by
        simpa [findN, Bool.not_eq_true _ ▸ h] using hq
      have hno' : findL p' cs = none := by
        by_cases hp : p' (Node.elem t a cs) = true
        · rw [findN_of_p hp] at hno; exact absurd hno (by simp)
        · simpa [findN, Bool.not_eq_true _ ▸ hp] using hno
      exact ih r hno' hq'
  · intro r _ hq
    simp [findL] at hq
  · intro n ns ihn ihl r hno hq
    have hn : findN p' n = none := by
      rcases hx : findN p' n with _ | v
      · rfl
      · rw [findL, hx] at hno; exact absurd hno (by simp)
    have hns : findL p' ns = none := by rw [findL, hn] at hno; exact hno
    rcases hx : findN q n with _ | v
    · rw [findL, hx] at hq
      exact ihl r hns hq
    · rw [findL, hx] at hq
      exact ihn r hn (hx.trans hq)

theorem findN_none_elem {p : Node → Bool} {t a cs} :
    findN p (.elem t a cs) = none ↔ p (.elem t a cs) = false ∧ findL p cs = none := by
  by_cases h : p (.elem t a cs) = true
  · simp [findN_of_p h, h]
  · simp [findN, Bool.not_eq_true _ ▸ h]

/-- First-match updates with a match-free-output `f` never create a
`p`-match when none existed, for `p` false on text nodes and ignoring
children. -/
theorem upd_none_pres (p q : Node → Bool) (f : Node → Node)
    (hc : ∀ t a cs cs', p (.elem t a cs) = p (.elem t a cs'))
    (hf : ∀ m, findN p m = none → findN p (f m) = none) :
    (∀ n, findN p n = none → findN p (updN q f n).1 = none) ∧
    (∀ l, findL p l = none → findL p (updL q f l).1 = none) := by
  refine node_ind_both ?_ ?_ ?_ ?_
  · intro s hno
    by_cases h : q (Node.text s) = true
    · simpa [updN, h] using hf _ hno
    · simpa [updN, Bool.not_eq_true _ ▸ h] using hno
  · intro t a cs ih hno
    rcases findN_none_elem.mp hno with ⟨hroot, hcs⟩
    by_cases h : q (Node.elem t a cs) = true
    · simpa [updN, h] using hf _ hno
    · have h' : q (Node.elem t a cs) = false := Bool.not_eq_true _ ▸ h
      have hred : (updN q f (Node.elem t a cs)).1 = Node.elem t a (updL q f cs).1 := by
        simp [updN, h']
      rw [hred]
      exact findN_none_elem.mpr ⟨(hc t a _ _).symm.trans hroot, ih hcs⟩
  · intro _
    simp [updL, findL]
  · intro n ns ihn ihl hno
    have hn : findN p n = none := by
      rcases hx : findN p n with _ | v
      · rfl
      · rw [findL, hx] at hno; exact absurd hno (by simp)
    have hns : findL p ns = none := by rw [findL, hn] at hno; exact hno
    by_cases h : (updN q f n).2 = true
    · rw [updL]
      simp only [h, if_true]
      rw [findL, ihn hn]
      exact hns
    · rw [updL]
      simp only [Bool.not_eq_true _ ▸ h, Bool.false_eq_true, if_false]
      rw [findL, hn]
      exact ihl hns

/-- The query binder (`set_search_query` / `_replace_search_bar_query`)
cannot create a match of a predicate that is false on text nodes and
depends only on the tag name and the `id` attribute: it only rewrites
the textarea's `value` attribute and replaces children with text. -/
theorem sq_pres (p : Node → Bool)
    (hp1 : ∀ s, p (.text s) = false)
    (hid : ∀ t a cs a' cs', getAttr (str "id") a' = getAttr (str "id") a →
      p (.elem t a' cs') = p (.elem t a cs)) :
    ∀ t q, findN p t = none → findN p (set_search_query t q) = none := by
  have hc : ∀ t a cs cs', p (.elem t a cs) = p (.elem t a cs') :=
    fun t a cs cs' => (hid t a cs a cs' rfl).symm
  have hdesc : ∀ (q' : Node → Bool) (f : Node → Node),
      (∀ m, findN p m = none → findN p (f m) = none) →
      ∀ n, findN p n = none → findN p (updDesc q' f n) = none := by
    intro q' f hf n hno
    cases n with
    | text s => simpa [updDesc, setChildrenTo, Node.children, updL] using hno
    | elem t a cs =>
      rcases findN_none_elem.mp hno with ⟨hroot, hcs⟩
      have : updDesc q' f (Node.elem t a cs) = Node.elem t a (updL q' f cs).1 := by
        simp [updDesc, setChildrenTo, Node.children]
      rw [this]
      exact findN_none_elem.mpr
        ⟨(hc t a _ _).symm.trans hroot, (upd_none_pres p q' f hc hf).2 cs hcs⟩
  intro t q hno
  have hfTA : ∀ m, findN p m = none →
      findN p (setChildrenTo [Node.text q] (setAttrN (str "value") q m)) = none := by
    intro m hm
    cases m with
    | text s => simpa [setAttrN, setChildrenTo] using hm
    | elem tg a cs =>
      rcases findN_none_elem.mp hm with ⟨hroot, _⟩
      simp only [setAttrN, setChildrenTo]
      refine findN_none_elem.mpr ⟨?_, ?_⟩
      · rw [hid tg a cs _ _ (getAttr_setAttr_ne _ _ _ (by decide) a)]
        exact hroot
      · simp [findL, findN, hp1]
  have hfTitle : ∀ m, findN p m = none →
      findN p ((fun n =>
        match n with
        | Node.elem t' a' [Node.text s] =>
          if s.isEmpty then Node.elem t' a' [Node.text s]
          else Node.elem t' a' [Node.text (googleTitleSub q s)]
        | m' => m') m) = none := by
    intro m hm
    rcases m with s | ⟨tg, a, cs⟩
    · exact hm
    · rcases cs with _ | ⟨c0, cs0⟩
      · exact hm
      · rcases c0 with s0 | e0
        · rcases cs0 with _ | ⟨c1, cs1⟩
          · rcases findN_none_elem.mp hm with ⟨hroot, _⟩
            by_cases he : s0.isEmpty
            · simpa [he] using hm
            · simp only [he, Bool.false_eq_true, if_false]
              refine findN_none_elem.mpr ⟨?_, ?_⟩
              · rw [hid tg a [Node.text s0] a _ rfl]
                exact hroot
              · simp [findL, findN, hp1]
          · exact hm
        · exact hm
  exact hdesc _ _ hfTitle _ (hdesc _ _ hfTA t hno)

theorem findDesc_none_of_findN_none {p : Node → Bool} {n : Node}
    (h : findN p n = none) : findDesc p n = none := by
  cases n with
  | text s => simp [findDesc, Node.children, findL]
  | elem t a cs => exact (findN_none_elem.mp h).2

theorem rsoPred_text (s : Str) : rsoPred (.text s) = false := rfl

theorem rsoPred_id (t a cs a' cs')
    (h : getAttr (str "id") a' = getAttr (str "id") a) :
    rsoPred (.elem t a' cs') = rsoPred (.elem t a cs) := by
  simp [rsoPred, getAttrN, tagIs, h]

theorem contPred_text (s : Str) : contPred (.text s) = false := rfl

theorem contPred_id (t a cs a' cs')
    (h : getAttr (str "id") a' = getAttr (str "id") a) :
    contPred (.elem t a' cs') = contPred (.elem t a cs) := by
  simp [contPred, getAttrN, tagIs, h]

/-- C2: a template missing a required anchor (results container,
repeatable result unit, AI Overview container, answer body, sources
container, source-card template) makes rendering return the raised
`RuntimeError` naming that anchor; no output document value exists, so
nothing is written (`write_text` runs only after every check, on the
`ok` path).  The unit/body/sources hypotheses are phrased on the
document produced by the query-binding step, which runs first and, by
`sq_pres`, cannot create the container anchors. -/
theorem missing_anchor_aborts_render :
    (∀ t q rows, findN rsoPred t = none →
      render_serp t q rows =
        .error (str "Could not locate results container div#rso in serp_template.html")) ∧
    (∀ t q rows rso, findN organicPred (set_search_query t q) = none →
      findDesc rsoPred (set_search_query t q) = some rso →
      render_serp t q rows =
        .error (str "Could not find an organic result block to clone (div.MjjYud containing div.yuRUbf).")) ∧
    (∀ t text rows q, findN contPred t = none →
      render_one t text rows q =
        .error (str "Could not locate AI Overview container: expected an element with id='eKIzJc'.")) ∧
    (∀ t text rows q cont, findDesc contPred (set_search_query t q) = some cont →
      findDesc bodyPred cont = none →
      render_one t text rows q =
        .error (str "Could not locate AI Overview body (div.mZJni.Dn7Fzd) in the template.")) ∧
    (∀ t text rows q cont cont2, findDesc contPred (set_search_query t q) = some cont →
      replace_aio_overview cont text = .ok cont2 →
      findDesc ulPred cont2 = none →
      render_one t text rows q =
        .error (str "Could not locate the Sources container (<ul class='EJw9bc'>) in the template.")) ∧
    (∀ t text rows q cont cont2 ul, findDesc contPred (set_search_query t q) = some cont →
      replace_aio_overview cont text = .ok cont2 →
      findDesc ulPred cont2 = some ul →
      findDesc cardPred cont2 = none →
      render_one t text rows q =
        .error (str "Could not locate a source card template (div.MFrAxb) in the template.")) := by
  refine ⟨?_, ?_, ?_, ?_, ?_, ?_⟩
  · intro t q rows h
    have h2 : findN rsoPred (set_search_query t q) = none :=
      sq_pres rsoPred rsoPred_text rsoPred_id t q h
    rw [render_serp, findDesc_none_of_findN_none h2]
  · intro t q rows rso h1 h2
    have hsub : findN organicPred rso = none := by
      refine (find_sub_none organicPred rsoPred).2 (set_search_query t q).children rso ?_ h2
      exact findDesc_none_of_findN_none h1
    rw [render_serp, h2]
    simp only [find_first_organic_result]
    rw [findDesc_none_of_findN_none hsub]
  · intro t text rows q h
    have h2 : findN contPred (set_search_query t q) = none :=
      sq_pres contPred contPred_text contPred_id t q h
    rw [render_one, findDesc_none_of_findN_none h2]
  · intro t text rows q cont h1 h2
    rw [render_one, h1]
    simp only [replace_aio_overview]
    rw [h2]
    rfl
  · intro t text rows q cont cont2 h1 h2 h3
    rw [render_one, h1]
    simp only [h2, Except.bind, bind, Except.instMonad]
    rw [replace_sources, h3]
  · intro t text rows q cont cont2 ul h1 h2 h3 h4
    rw [render_one, h1]
    simp only [h2, Except.bind, bind, Except.instMonad]
    rw [replace_sources, h3, h4]

def tmplNoRso : Node := Node.elem (str "html") [] []

def tmplRsoOnly : Node :=
  Node.elem (str "html") [] [Node.elem (str "div") [(str "id", str "rso")] []]

def tmplContOnly : Node :=
  Node.elem (str "html") [] [Node.elem (str "div") [(str "id", str "eKIzJc")] []]

def tmplContBody : Node :=
  Node.elem (str "html") []
    [Node.elem (str "div") [(str "id", str "eKIzJc")]
      [Node.elem (str "div") [(str "class", str "mZJni Dn7Fzd")] []]]

def tmplContBodyUl : Node :=
  Node.elem (str "html") []
    [Node.elem (str "div") [(str "id", str "eKIzJc")]
      [Node.elem (str "div") [(str "class", str "mZJni Dn7Fzd")] [],
       Node.elem (str "ul") [(str "class", str "EJw9bc")] []]]

theorem missing_anchor_aborts_render_witness :
    render_serp tmplNoRso (str "q") [] =
      .error (str "Could not locate results container div#rso in serp_template.html") ∧
    render_serp tmplRsoOnly (str "q") [] =
      .error (str "Could not find an organic result block to clone (div.MjjYud containing div.yuRUbf).") ∧
    render_one tmplNoRso none [] (str "q") =
      .error (str "Could not locate AI Overview container: expected an element with id='eKIzJc'.") ∧
    render_one tmplContOnly none [] (str "q") =
      .error (str "Could not locate AI Overview body (div.mZJni.Dn7Fzd) in the template.") ∧
    render_one tmplContBody none [] (str "q") =
      .error (str "Could not locate the Sources container (<ul class='EJw9bc'>) in the template.") ∧
    render_one tmplContBodyUl none [] (str "q") =
      .error (str "Could not locate a source card template (div.MFrAxb) in the template.") :=
  ⟨missing_anchor_aborts_render.1 tmplNoRso (str "q") [] rfl,
   missing_anchor_aborts_render.2.1 tmplRsoOnly (str "q") [] _ rfl rfl,
   missing_anchor_aborts_render.2.2.1 tmplNoRso none [] (str "q") rfl,
   missing_anchor_aborts_render.2.2.2.1 tmplContOnly none [] (str "q") _ rfl rfl,
   missing_anchor_aborts_render.2.2.2.2.1 tmplContBody none [] (str "q") _
     (Node.elem (str "div") [(str "id", str "eKIzJc")]
       [Node.elem (str "div") [(str "class", str "mZJni Dn7Fzd")] [placeholderP]])
     rfl (by with_unfolding_all rfl) rfl,
   missing_anchor_aborts_render.2.2.2.2.2 tmplContBodyUl none [] (str "q") _
     (Node.elem (str "div") [(str "id", str "eKIzJc")]
       [Node.elem (str "div") [(str "class", str "mZJni Dn7Fzd")] [placeholderP],
        Node.elem (str "ul") [(str "class", str "EJw9bc")] []])
     (Node.elem (str "ul") [(str "class", str "EJw9bc")] [])
     rfl (by with_unfolding_all rfl) (by with_unfolding_all rfl)
     (by with_unfolding_all rfl)⟩

/-- The node returned by the first-match search satisfies the
predicate. -/
theorem find_satisfies (p : Node → Bool) :
    (∀ n r, findN p n = some r → p r = true) ∧
    (∀ l r, findL p l = some r → p r = true) := by
  refine node_ind_both ?_ ?_ ?_ ?_
  · intro s r h
    by_cases hp : p (Node.text s) = true
    · rw [findN_of_p hp] at h
      exact (Option.some_inj.mp h) ▸ hp
    · simp [findN, Bool.not_eq_true _ ▸ hp] at h
  · intro t a cs ih r h
    by_cases hp : p (Node.elem t a cs) = true
    · rw [findN_of_p hp] at h
      exact (Option.some_inj.mp h) ▸ hp
    · refine ih r ?_
      simpa [findN, Bool.not_eq_true _ ▸ hp] using h
  · intro r h
    simp [findL] at h
  · intro n ns ihn ihl r h
    rcases hx : findN p n with _ | v
    · rw [findL, hx] at h
      exact ihl r h
    · rw [findL, hx] at h
      exact ihn r (hx.trans h)

/-- Whether the answer text is absent (not a string) or blank, the
condition of the placeholder branch of `_replace_aio_overview`. -/
def aioTextBlank : Option Str → Prop
  | none => True
  | some s => pyStrip s = []

theorem bodyPred_children (t a cs cs') :
    bodyPred (.elem t a cs) = bodyPred (.elem t a cs') := by
  simp [bodyPred, tagIs, hasClassToken, classTokens, getAttrN]

/-- C10: when the answer text is absent or blank, the answer-body
replacement still succeeds and the body ends up holding exactly one
paragraph node with the fixed placeholder text, its tag and attributes
untouched. -/
theorem empty_answer_placeholder (cont : Node) (t : Option Str) (b : Node)
    (hblank : aioTextBlank t) (hb : findDesc bodyPred cont = some b) :
    replace_aio_overview cont t = .ok (updDesc bodyPred (setChildrenTo [placeholderP]) cont) ∧
    findDesc bodyPred (updDesc bodyPred (setChildrenTo [placeholderP]) cont) =
      some (setChildrenTo [placeholderP] b) ∧
    (setChildrenTo [placeholderP] b).children = [placeholderP] ∧
    (setChildrenTo [placeholderP] b).attrsOf = b.attrsOf ∧
    placeholderP = Node.elem (str "p") [(str "class", str "T286Pc")]
      [Node.text (str "(No AI Overview text available for this row.)")] := by
  have hnodes : renderAioNodes t = [placeholderP] := by
    cases t with
    | none => rfl
    | some s =>
      have hs : pyStrip s = [] := hblank
      simp [renderAioNodes, hs]
  have hpb : bodyPred b = true := (find_satisfies bodyPred).2 _ _ hb
  have hbelem : ∀ s, b ≠ Node.text s := by
    intro s hcontra
    rw [hcontra] at hpb
    simp [bodyPred, tagIs] at hpb
  refine ⟨?_, ?_, ?_, ?_, rfl⟩
  · rw [replace_aio_overview, hb, hnodes]
  · have hpres : ∀ n, bodyPred n = true → bodyPred (setChildrenTo [placeholderP] n) = true := by
      intro n hn
      cases n with
      | text s => simpa [bodyPred, tagIs] using hn
      | elem tg a cs => rw [setChildrenTo, ← bodyPred_children tg a cs]; exact hn
    have hmain := (find_upd bodyPred (setChildrenTo [placeholderP]) hpres bodyPred_children).2
    cases cont with
    | text s => simp [findDesc, Node.children, findL] at hb
    | elem tg a cs =>
      rw [findDesc, Node.children] at hb
      rw [updDesc, Node.children, findDesc, setChildrenTo, Node.children, hmain cs, hb]
      rfl
  · rcases b with s | ⟨tg, a, cs⟩
    · exact absurd rfl (hbelem s)
    · rfl
  · rcases b with s | ⟨tg, a, cs⟩
    · exact absurd rfl (hbelem s)
    · rfl

def blankTextCont : Node :=
  Node.elem (str "div") [(str "id", str "eKIzJc")]
    [Node.elem (str "div") [(str "class", str "mZJni Dn7Fzd")]
      [Node.text (str "frog sample")]]

theorem empty_answer_placeholder_witness :
    replace_aio_overview blankTextCont (some (str "  \n ")) =
      .ok (updDesc bodyPred (setChildrenTo [placeholderP]) blankTextCont) ∧
    findDesc bodyPred (updDesc bodyPred (setChildrenTo [placeholderP]) blankTextCont) =
      some (setChildrenTo [placeholderP]
        (Node.elem (str "div") [(str "class", str "mZJni Dn7Fzd")]
          [Node.text (str "frog sample")])) ∧
    (setChildrenTo [placeholderP]
        (Node.elem (str "div") [(str "class", str "mZJni Dn7Fzd")]
          [Node.text (str "frog sample")])).children = [placeholderP] ∧
    (setChildrenTo [placeholderP]
        (Node.elem (str "div") [(str "class", str "mZJni Dn7Fzd")]
          [Node.text (str "frog sample")])).attrsOf =
      (Node.elem (str "div") [(str "class", str "mZJni Dn7Fzd")]
        [Node.text (str "frog sample")]).attrsOf ∧
    placeholderP = Node.elem (str "p") [(str "class", str "T286Pc")]
      [Node.text (str "(No AI Overview text available for this row.)")] :=
  empty_answer_placeholder blankTextCont (some (str "  \n ")) _ (by rfl) (by with_unfolding_all rfl)

/-! ## Rank-order lemmas -/

/-- Row comparison in the `ascending, na_position="last"` order. -/
def rowLE (a b : SourceRow) : Prop := rankLE a.rank b.rank = true

theorem rankLE_total (a b : Option Nat) : rankLE a b = true ∨ rankLE b a = true := by
  cases a <;> cases b <;> simp [rankLE]
  exact Nat.le_total _ _

theorem rankLE_trans {a b c : Option Nat}
    (h1 : rankLE a b = true) (h2 : rankLE b c = true) : rankLE a c = true := by
  cases a <;> cases b <;> cases c <;> simp [rankLE] at *
  exact Nat.le_trans h1 h2

theorem insertRank_perm (x : SourceRow) :
    ∀ l, (insertRank x l).Perm (x :: l) := by
  intro l
  induction l with
  | nil => exact List.Perm.refl _
  | cons y ys ih =>
    rw [insertRank]
    by_cases h : rankLE x.rank y.rank = true
    · simp [h]
    · simp only [h, Bool.false_eq_true, if_false]
      exact (ih.cons y).trans (List.Perm.swap x y ys)

theorem sortByRank_perm (l : List SourceRow) : (sortByRank l).Perm l := by
  induction l with
  | nil => exact List.Perm.refl _
  | cons x xs ih =>
    rw [sortByRank, List.foldr]
    exact (insertRank_perm x _).trans (ih.cons x)

theorem insertRank_sorted (x : SourceRow) :
    ∀ l, List.Pairwise rowLE l → List.Pairwise rowLE (insertRank x l) := by
  intro l
  induction l with
  | nil => intro _; simp [insertRank, List.pairwise_singleton]
  | cons y ys ih =>
    intro hp
    rcases List.pairwise_cons.mp hp with ⟨hy, hys⟩
    rw [insertRank]
    by_cases h : rankLE x.rank y.rank = true
    · simp only [h, if_true]
      refine List.pairwise_cons.mpr ⟨?_, hp⟩
      intro z hz
      rcases List.mem_cons.mp hz with heq | hz2
      · rw [heq]; exact h
      · exact rankLE_trans h (hy z hz2)
    · simp only [h, Bool.false_eq_true, if_false]
      refine List.pairwise_cons.mpr ⟨?_, ih hys⟩
      intro z hz
      have hz' : z ∈ x :: ys := (insertRank_perm x ys).mem_iff.mp hz
      rcases List.mem_cons.mp hz' with heq | hz2
      · rw [heq]
        rcases rankLE_total x.rank y.rank with h' | h'
        · exact absurd h' h
        · exact h'
      · exact hy z hz2

theorem sortByRank_sorted (l : List SourceRow) :
    List.Pairwise rowLE (sortByRank l) := by
  induction l with
  | nil => simp [sortByRank]
  | cons x xs ih =>
    rw [sortByRank, List.foldr]
    exact insertRank_sorted x _ ih

theorem rsoPred_children (t a cs cs') :
    rsoPred (.elem t a cs) = rsoPred (.elem t a cs') := rsoPred_id t a cs' a cs rfl

theorem ulPred_children (t a cs cs') :
    ulPred (.elem t a cs) = ulPred (.elem t a cs') := by
  simp [ulPred, tagIs, hasClassSubstr, classTokens, getAttrN]

/-- Look up the first `p`-match after updating it, for a predicate that
ignores children; packaged for a found parent. -/
theorem findDesc_updDesc {p : Node → Bool} {f : Node → Node} {n r : Node}
    (hpres : ∀ m, p m = true → p (f m) = true)
    (hch : ∀ t a cs cs', p (.elem t a cs) = p (.elem t a cs'))
    (h : findDesc p n = some r) :
    findDesc p (updDesc p f n) = some (f r) := by
  cases n with
  | text s => simp [findDesc, Node.children, findL] at h
  | elem tg a cs =>
    rw [findDesc, Node.children] at h
    rw [updDesc, Node.children, findDesc, setChildrenTo, Node.children,
      (find_upd p f hpres hch).2 cs, h]
    rfl

/-- C3: with more SourceItems than the cap, the rendered output binds
exactly the cap count — 10 in `render_serp`, 8 in `_replace_sources` —
namely the prefix of the rank-sorted rows (ascending, absent ranks
last; the sorted list is a permutation of the input). -/
theorem bounded_source_selection :
    (∀ t q rows rso unit, 10 < rows.length →
      findDesc rsoPred (set_search_query t q) = some rso →
      find_first_organic_result rso = some unit →
      ∃ out rso', render_serp t q rows = .ok out ∧
        findDesc rsoPred out = some rso' ∧
        rso'.children.length = 10 ∧
        rso'.children = ((sortByRank rows).take 10).map (fun r =>
          let f := rowFields r
          fill_one_result unit f.1 f.2.1 f.2.2.1 f.2.2.2) ∧
        List.Pairwise rowLE (sortByRank rows) ∧
        (sortByRank rows).Perm rows) ∧
    (∀ cont rows ul card, 8 < rows.length →
      findDesc ulPred cont = some ul →
      findDesc cardPred cont = some card →
      ∃ out ul', replace_sources cont rows = .ok out ∧
        findDesc ulPred out = some ul' ∧
        ul'.children.length = 8 ∧
        ul'.children = ((sortByRank rows).take 8).map (fun r =>
          let f := rowFields r
          Node.elem (str "li") [(str "class", str "jydCyd")]
            [build_card card f.1 f.2.1 f.2.2.1 f.2.2.2]) ∧
        List.Pairwise rowLE (sortByRank rows) ∧
        (sortByRank rows).Perm rows) := by
  constructor
  · intro t q rows rso unit hlen h1 h2
    have hrso : rsoPred rso = true := (find_satisfies rsoPred).2 _ _ h1
    rcases rso with s | ⟨tg, a, cs⟩
    · exact absurd hrso (by simp [rsoPred, tagIs])
    · have hpres : ∀ m, rsoPred m = true →
          rsoPred (setChildrenTo (((sortByRank rows).take 10).map (fun r =>
            let f := rowFields r
            fill_one_result unit f.1 f.2.1 f.2.2.1 f.2.2.2)) m) = true := by
        intro m hm
        cases m with
        | text s => simp [rsoPred, tagIs] at hm
        | elem tg' a' cs' => rw [setChildrenTo, rsoPred_children tg' a' _ cs']; exact hm
      have hfind := findDesc_updDesc hpres rsoPred_children h1
      refine ⟨_, _, ?_, hfind, ?_, rfl, sortByRank_sorted rows, sortByRank_perm rows⟩
      · simp only [render_serp, h1, h2]
      · rw [setChildrenTo, Node.children, List.length_map, List.length_take,
          (sortByRank_perm rows).length_eq]
        omega
  · intro cont rows ul card hlen h1 h2
    have hul : ulPred ul = true := (find_satisfies ulPred).2 _ _ h1
    rcases ul with s | ⟨tg, a, cs⟩
    · exact absurd hul (by simp [ulPred, tagIs])
    · have hpres : ∀ m, ulPred m = true →
          ulPred (setChildrenTo (((sortByRank rows).take 8).map (fun r =>
            let f := rowFields r
            Node.elem (str "li") [(str "class", str "jydCyd")]
              [build_card card f.1 f.2.1 f.2.2.1 f.2.2.2])) m) = true := by
        intro m hm
        cases m with
        | text s => simp [ulPred, tagIs] at hm
        | elem tg' a' cs' => rw [setChildrenTo, ulPred_children tg' a' _ cs']; exact hm
      have hfind := findDesc_updDesc hpres ulPred_children h1
      refine ⟨_, _, ?_, hfind, ?_, rfl, sortByRank_sorted rows, sortByRank_perm rows⟩
      · simp only [replace_sources, h1, h2]
      · rw [setChildrenTo, Node.children, List.length_map, List.length_take,
          (sortByRank_perm rows).length_eq]
        omega

def c3Unit : Node :=
  Node.elem (str "div") [(str "class", str "MjjYud")]
    [Node.elem (str "div") [(str "class", str "yuRUbf")] []]

def c3Tmpl : Node :=
  Node.elem (str "html") [] [Node.elem (str "div") [(str "id", str "rso")] [c3Unit]]

def c3Row (i : Nat) : SourceRow :=
  ⟨str "u", str "t", str "s", str "n", str "d", some i⟩

def c3Rows : List SourceRow := (List.range 11).map c3Row

def c3Cont : Node :=
  Node.elem (str "div") []
    [Node.elem (str "ul") [(str "class", str "EJw9bc")] [],
     Node.elem (str "div") [(str "class", str "MFrAxb")] []]

def c3RowsB : List SourceRow := (List.range 9).map c3Row

theorem bounded_source_selection_witness :
    (∃ out rso', render_serp c3Tmpl (str "q") c3Rows = .ok out ∧
      findDesc rsoPred out = some rso' ∧
      rso'.children.length = 10 ∧
      rso'.children = ((sortByRank c3Rows).take 10).map (fun r =>
        let f := rowFields r
        fill_one_result c3Unit f.1 f.2.1 f.2.2.1 f.2.2.2) ∧
      List.Pairwise rowLE (sortByRank c3Rows) ∧
      (sortByRank c3Rows).Perm c3Rows) ∧
    (∃ out ul', replace_sources c3Cont c3RowsB = .ok out ∧
      findDesc ulPred out = some ul' ∧
      ul'.children.length = 8 ∧
      ul'.children = ((sortByRank c3RowsB).take 8).map (fun r =>
        let f := rowFields r
        Node.elem (str "li") [(str "class", str "jydCyd")]
          [build_card (Node.elem (str "div") [(str "class", str "MFrAxb")] [])
            f.1 f.2.1 f.2.2.1 f.2.2.2]) ∧
      List.Pairwise rowLE (sortByRank c3RowsB) ∧
      (sortByRank c3RowsB).Perm c3RowsB) :=
  ⟨bounded_source_selection.1 c3Tmpl (str "q") c3Rows
     (Node.elem (str "div") [(str "id", str "rso")] [c3Unit]) c3Unit
     (by decide) (by with_unfolding_all rfl) (by with_unfolding_all rfl),
   bounded_source_selection.2 c3Cont c3RowsB
     (Node.elem (str "ul") [(str "class", str "EJw9bc")] [])
     (Node.elem (str "div") [(str "class", str "MFrAxb")] [])
     (by decide) (by with_unfolding_all rfl) (by with_unfolding_all rfl)⟩

/-! ## Sanitizer idempotence -/

theorem mem_delAttr {x : Str × Str} {k : Str} {a : Attrs} (h : x ∈ delAttr k a) :
    x ∈ a ∧ x.1 ≠ k := by
  have := List.mem_filter.mp h
  exact ⟨this.1, by simpa using this.2⟩

theorem delAttr_eq_self {k : Str} {a : Attrs} (h : ∀ x ∈ a, x.1 ≠ k) :
    delAttr k a = a :=
  List.filter_eq_self.mpr (fun x hx => by simpa using h x hx)

theorem mem_delAll {x : Str × Str} :
    ∀ (ks : List Str) (a : Attrs), x ∈ delAll ks a → x ∈ a ∧ ∀ k ∈ ks, x.1 ≠ k := by
  intro ks
  induction ks with
  | nil => intro a h; exact ⟨h, by simp⟩
  | cons k ks ih =>
    intro a h
    rw [delAll, List.foldl] at h
    rcases ih (delAttr k a) h with ⟨hmem, hrest⟩
    rcases mem_delAttr hmem with ⟨ha, hk⟩
    refine ⟨ha, ?_⟩
    intro k' hk'
    rcases List.mem_cons.mp hk' with heq | htl
    · rw [heq]; exact hk
    · exact hrest k' htl

theorem delAll_eq_self :
    ∀ (ks : List Str) (a : Attrs), (∀ x ∈ a, ∀ k ∈ ks, x.1 ≠ k) → delAll ks a = a := by
  intro ks
  induction ks with
  | nil => intro a _; rfl
  | cons k ks ih =>
    intro a h
    rw [delAll, List.foldl]
    have hk : delAttr k a = a :=
      delAttr_eq_self (fun x hx => h x hx k (List.mem_cons_self k ks))
    rw [hk]
    exact ih a (fun x hx k' hk' => h x hx k' (List.mem_cons_of_mem k hk'))

theorem mapAttrs_comp (g g' : Str → Attrs → Attrs) :
    (∀ n, mapAttrsN g (mapAttrsN g' n) = mapAttrsN (fun t a => g t (g' t a)) n) ∧
    (∀ l, mapAttrsL g (mapAttrsL g' l) = mapAttrsL (fun t a => g t (g' t a)) l) := by
  refine node_ind_both ?_ ?_ ?_ ?_
  · intro s; rfl
  · intro t a cs ih
    simp [mapAttrsN, ih]
  · rfl
  · intro n ns ihn ihl
    simp [mapAttrsL, ihn, ihl]

theorem mapAttrs_congr (g g' : Str → Attrs → Attrs) (hg : ∀ t a, g t a = g' t a) :
    (∀ n, mapAttrsN g n = mapAttrsN g' n) ∧
    (∀ l, mapAttrsL g l = mapAttrsL g' l) := by
  refine node_ind_both ?_ ?_ ?_ ?_
  · intro s; rfl
  · intro t a cs ih
    simp [mapAttrsN, ih, hg]
  · rfl
  · intro n ns ihn ihl
    simp [mapAttrsL, ihn, ihl]

theorem mapAttrsDesc_comp (g g' : Str → Attrs → Attrs) (n : Node) :
    mapAttrsDesc g (mapAttrsDesc g' n) = mapAttrsDesc (fun t a => g t (g' t a)) n := by
  cases n with
  | text s => rfl
  | elem t a cs =>
    simp [mapAttrsDesc, setChildrenTo, Node.children, (mapAttrs_comp g g').2]

/-- The per-element attribute transformation of the two `sanitize`
passes combined. -/
def sanG (t : Str) (a : Attrs) : Attrs :=
  delAll jsAttrs (if t = str "a" then delAttr (str "ping") a else a)

/-- C4 (amended): the attribute-stripping pass (`sanitize` /
`_sanitize_card`) is idempotent — deleting the `ping` and
instrumentation attributes twice equals deleting them once.  (The full
Sanitizer including `_disable_all_links` is not idempotent; see the
counterexample.) -/
theorem sanitize_attr_strip_idempotent (n : Node) : sanitize (sanitize n) = sanitize n := by
  have hsan : ∀ m, sanitize m = mapAttrsDesc sanG m := fun m => mapAttrsDesc_comp _ _ m
  have hpoint : ∀ t a, sanG t (sanG t a) = sanG t a := by
    intro t a
    rw [sanG, sanG]
    set inner := delAll jsAttrs (if t = str "a" then delAttr (str "ping") a else a)
      with hinner
    have hmem : ∀ x ∈ inner, (∀ k ∈ jsAttrs, x.1 ≠ k) ∧
        (t = str "a" → x.1 ≠ str "ping") := by
      intro x hx
      rcases mem_delAll jsAttrs _ hx with ⟨hmem1, hks⟩
      refine ⟨hks, ?_⟩
      intro ht
      rw [ht] at hmem1
      simp only [if_pos rfl] at hmem1
      exact (mem_delAttr hmem1).2
    have hping : (if t = str "a" then delAttr (str "ping") inner else inner) = inner := by
      by_cases ht : t = str "a"
      · simp only [ht, if_pos rfl]
        exact delAttr_eq_self (fun x hx => (hmem x hx).2 ht)
      · simp [ht]
    rw [hping]
    exact delAll_eq_self jsAttrs inner (fun x hx => (hmem x hx).1)
  rw [hsan, hsan, mapAttrsDesc_comp]
  cases n with
  | text s => rfl
  | elem t a cs =>
    simp only [mapAttrsDesc, setChildrenTo, Node.children]
    exact congrArg (Node.elem t a) ((mapAttrs_congr _ _ hpoint).2 cs)

def sanNode : Node :=
  Node.elem (str "div") [] [Node.elem (str "a") [(str "href", str "x")] []]

/-- C4 (counterexample): the combined Sanitizer pass — attribute
stripping (`sanitize`) followed by link disabling
(`_disable_all_links`) — is not idempotent: the second application
appends the `pointer-events:none; cursor:default;` styling again, so
the outputs differ. -/
theorem sanitizer_pass_not_idempotent :
    disable_all_links (sanitize (disable_all_links (sanitize sanNode))) ≠
      disable_all_links (sanitize sanNode) := by
  intro h
  have h2 := congrArg (fun m => (findDesc aTagPred m).map (getAttrN (str "style"))) h
  revert h2
  decide

/-! ## Snippet truncation boundary -/

theorem pyRstrip_length_le (s : Str) : (pyRstrip s).length ≤ s.length := by
  rw [pyRstrip, List.length_reverse]
  exact (dropWhile_length_le _ _).trans (by rw [List.length_reverse])

/-- C5 (amended): condensed text within the 260-character budget is
returned unmodified; over the budget, the result is the first 259
characters right-stripped with the ellipsis appended — it always ends
with the ellipsis and its length is at most (not always exactly) the
budget. -/
theorem snippet_truncation_bounds (s : Str) :
    ((snippetCore s).length ≤ 260 →
      table_blob_to_googleish_snippet s 260 = snippetCore s) ∧
    (260 < (snippetCore s).length →
      table_blob_to_googleish_snippet s 260 =
        pyRstrip ((snippetCore s).take 259) ++ ['…'] ∧
      (table_blob_to_googleish_snippet s 260).getLast? = some '…' ∧
      (table_blob_to_googleish_snippet s 260).length ≤ 260) := by
  constructor
  · intro h
    rw [table_blob_factor, snippetTruncate, if_neg (by omega)]
  · intro h
    have heq : table_blob_to_googleish_snippet s 260 =
        pyRstrip ((snippetCore s).take 259) ++ ['…'] := by
      rw [table_blob_factor, snippetTruncate, if_pos (by omega)]
    refine ⟨heq, ?_, ?_⟩
    · rw [heq]
      exact List.getLast?_concat _
    · rw [heq, List.length_append]
      have h1 : ((snippetCore s).take 259).length ≤ 259 := by
        rw [List.length_take]; omega
      have h2 := pyRstrip_length_le ((snippetCore s).take 259)
      simp only [List.length_cons, List.length_nil]
      omega

def c5Blob : Str := List.replicate 258 'a' ++ str " ab"

set_option maxRecDepth 100000 in
/-- C5 (counterexample): an input whose condensed text is 261
characters — one over the budget — whose truncation strips a trailing
space before appending the ellipsis, giving total length 259, not the
budget 260. -/
theorem snippet_budget_counterexample :
    (snippetCore c5Blob).length = 261 ∧
    (table_blob_to_googleish_snippet c5Blob 260).getLast? = some '…' ∧
    (table_blob_to_googleish_snippet c5Blob 260).length = 259 ∧
    (table_blob_to_googleish_snippet c5Blob 260).length ≠ 260 := by decide

def c5Long : Str := List.replicate 261 'b'

set_option maxRecDepth 100000 in
theorem snippet_truncation_bounds_witness :
    table_blob_to_googleish_snippet (str "abc") 260 = snippetCore (str "abc") ∧
    (table_blob_to_googleish_snippet c5Long 260 =
        pyRstrip ((snippetCore c5Long).take 259) ++ ['…'] ∧
      (table_blob_to_googleish_snippet c5Long 260).getLast? = some '…' ∧
      (table_blob_to_googleish_snippet c5Long 260).length ≤ 260) :=
  ⟨(snippet_truncation_bounds (str "abc")).1 (by decide),
   (snippet_truncation_bounds c5Long).2 (by decide)⟩

/-! ## Asset path rewriting -/

/-- `replaceSubF` is insensitive to any fuel at least the string
length. -/
theorem replaceSubF_fuel (pat repl : Str) :
    ∀ fuel s, s.length ≤ fuel → replaceSubF pat repl fuel s = replaceSub pat repl s := by
  intro fuel
  induction fuel using Nat.strong_induction_on with
  | _ fuel ih =>
    intro s hs
    match fuel, s with
    | 0, s =>
      have : s = [] := List.length_eq_zero.mp (Nat.le_zero.mp hs)
      rw [this]
      rfl
    | f + 1, [] => rfl
    | f + 1, c :: cs =>
      rw [replaceSub]
      by_cases hcond : (startsWithS pat (c :: cs) && !pat.isEmpty) = true
      · have hpat : pat ≠ [] := by
          intro hp
          rw [hp] at hcond
          simp [List.isEmpty] at hcond
        have hplen : 1 ≤ pat.length := by
          cases pat
          · exact absurd rfl hpat
          · simp
        simp only [List.length_cons, replaceSubF]
        rw [if_pos hcond, if_pos hcond]
        have hd : ((c :: cs).drop pat.length).length ≤ cs.length := by
          rw [List.length_drop, List.length_cons]
          omega
        rw [ih f (by omega) _ (by simp at hs; omega)]
        rw [ih cs.length (by simp at hs; omega) _ hd]
      · simp only [List.length_cons, replaceSubF]
        rw [if_neg hcond, if_neg hcond]
        rw [ih f (by omega) cs (by simp at hs; omega)]
        rw [ih cs.length (by simp at hs; omega) cs (Nat.le_refl _)]

theorem startsWithS_mem :
    ∀ pat s : Str, startsWithS pat s = true → ∀ x ∈ pat, x ∈ s := by
  intro pat
  induction pat with
  | nil => intro s _ x hx; simp at hx
  | cons p ps ih =>
    intro s hs x hx
    cases s with
    | nil => simp [startsWithS] at hs
    | cons c cs =>
      rw [startsWithS, Bool.and_eq_true] at hs
      rcases List.mem_cons.mp hx with heq | htl
      · rw [heq, of_decide_eq_true hs.1]
        exact List.mem_cons_self c cs
      · exact List.mem_cons_of_mem c (ih cs hs.2 x htl)

/-- A single `str.replace` leaves a string without any character of the
pattern unchanged. -/
theorem replaceSubF_char_free (pat repl : Str) (ch : Char) (hch : ch ∈ pat) :
    ∀ fuel s, ch ∉ s → replaceSubF pat repl fuel s = s := by
  intro fuel
  induction fuel with
  | zero => intro s _; rfl
  | succ f ih =>
    intro s hs
    cases s with
    | nil => rfl
    | cons c cs =>
      have hcond : (startsWithS pat (c :: cs) && !pat.isEmpty) = false := by
        by_cases h : startsWithS pat (c :: cs) = true
        · exact absurd (startsWithS_mem pat _ h ch hch) hs
        · simp [Bool.not_eq_true _ ▸ h]
      rw [replaceSubF, if_neg (by rw [hcond]; simp)]
      rw [ih cs (fun hmem => hs (List.mem_cons_of_mem c hmem))]

theorem replaceSub_char_free (pat repl : Str) (ch : Char) (hch : ch ∈ pat)
    (s : Str) (hs : ch ∉ s) : replaceSub pat repl s = s :=
  replaceSubF_char_free pat repl ch hch s.length s hs

theorem startsWithS_append_self : ∀ p r : Str, startsWithS p (p ++ r) = true := by
  intro p r
  induction p with
  | nil => rfl
  | cons x xs ih => simp [startsWithS, ih]

/-- Peeling a head-character-free prefix off a `str.replace`. -/
theorem replaceSub_append_head_free (p0 : Char) (pr repl : Str) :
    ∀ a b : Str, (∀ c ∈ a, c ≠ p0) →
      replaceSub (p0 :: pr) repl (a ++ b) = a ++ replaceSub (p0 :: pr) repl b := by
  intro a
  induction a with
  | nil => intro b _; rfl
  | cons c a' ih =>
    intro b ha
    have hc : c ≠ p0 := ha c (List.mem_cons_self c a')
    rw [replaceSub, List.cons_append]
    simp only [List.length_cons, replaceSubF]
    rw [if_neg (by simp [startsWithS, Ne.symm hc])]
    rw [replaceSubF_fuel _ _ _ _ (Nat.le_refl _)]
    rw [ih b (fun x hx => ha x (List.mem_cons_of_mem c hx)), List.cons_append]

/-- Unfolding a `str.replace` at an occurrence of the pattern. -/
theorem replaceSub_at_pattern (p0 : Char) (pr repl rest : Str) :
    replaceSub (p0 :: pr) repl ((p0 :: pr) ++ rest) =
      repl ++ replaceSub (p0 :: pr) repl rest := by
  have hsw := startsWithS_append_self (p0 :: pr) rest
  rw [List.cons_append] at hsw
  rw [replaceSub, List.cons_append]
  simp only [List.length_cons, replaceSubF]
  rw [if_pos (by simp [hsw, List.isEmpty])]
  have hdrop : (p0 :: (pr ++ rest)).drop (pr.length + 1) = rest := by
    rw [List.drop_succ_cons, List.drop_left]
  rw [hdrop]
  rw [replaceSubF_fuel _ _ _ _ (by rw [List.length_append]; omega)]

theorem fileSchemeAt_colon {s : Str} (h : fileSchemeAt s = true) : ':' ∈ s := by
  rw [fileSchemeAt.eq_def] at h
  split at h
  · simp
  · exact absurd h (by simp)

theorem fileSchemeSubF_colon_free :
    ∀ (fuel : Nat) (prev : Bool) (s : Str), ':' ∉ s → fileSchemeSubF fuel prev s = s := by
  intro fuel
  induction fuel with
  | zero => intro _ s _; rfl
  | succ f ih =>
    intro prev s hs
    cases s with
    | nil => rfl
    | cons c cs =>
      have hat : fileSchemeAt (c :: cs) = false := by
        by_cases h : fileSchemeAt (c :: cs) = true
        · exact absurd (fileSchemeAt_colon h) hs
        · exact Bool.not_eq_true _ ▸ h
      rw [fileSchemeSubF, if_neg (by rw [hat]; simp)]
      rw [ih _ cs (fun hmem => hs (List.mem_cons_of_mem c hmem))]

theorem fileSchemeSub_colon_free (s : Str) (h : ':' ∉ s) : fileSchemeSub s = s :=
  fileSchemeSubF_colon_free s.length false s h

theorem fileSchemeSubF_strip (post : Str) (hpost : ':' ∉ post) :
    ∀ fuel, 1 ≤ fuel → fileSchemeSubF fuel false (str "file:///" ++ post) = post := by
  intro fuel hfuel
  match fuel, hfuel with
  | f + 1, _ =>
    have hform : str "file:///" ++ post =
        'f' :: 'i' :: 'l' :: 'e' :: ':' :: '/' :: '/' :: '/' :: post := rfl
    rw [hform, fileSchemeSubF]
    rw [if_pos (by with_unfolding_all rfl)]
    have hdrop : ('f' :: 'i' :: 'l' :: 'e' :: ':' :: '/' :: '/' :: '/' :: post).drop 8 = post := rfl
    rw [hdrop]
    exact fileSchemeSubF_colon_free f false post hpost

/-- C6 (amended): the rewriter replaces the `_files/` portion of a
`foo_files/` directory segment with `html_asset_files/` — producing
`foohtml_asset_files/`, not the bare fixed name — leaving the file name
and unrelated content unchanged, and it strips a `file:///` prefix
entirely.  (Hypotheses keep the surrounding text free of `_` and `:`,
so the quoted path is the only place the patterns can match.) -/
theorem asset_path_rewrite :
    (∀ pre post : Str, '_' ∉ pre → ':' ∉ pre → '_' ∉ post → ':' ∉ post →
      aio_fix_asset_paths (pre ++ str "foo_files/bar.png" ++ post) =
        pre ++ str "foohtml_asset_files/bar.png" ++ post) ∧
    (∀ post : Str, '_' ∉ post → ':' ∉ post →
      aio_fix_asset_paths (str "file:///" ++ post) = post) := by
  constructor
  · intro pre post h1 h2 h3 h4
    have e1 : pre ++ str "foo_files/bar.png" ++ post =
        (pre ++ str "foo") ++ (('_' :: str "files/") ++ (str "bar.png" ++ post)) := by
      rw [List.append_assoc, List.append_assoc]
      rfl
    rw [aio_fix_asset_paths, e1]
    have hpatform : str "_files/" = '_' :: str "files/" := rfl
    rw [hpatform]
    rw [replaceSub_append_head_free '_' (str "files/") _ (pre ++ str "foo") _
      (fun c hc => by
        rcases List.mem_append.mp hc with hpre | hfoo
        · exact fun heq => h1 (heq ▸ hpre)
        · simp only [str, List.mem_cons] at hfoo
          rcases hfoo with rfl | rfl | rfl | h <;> first | decide | simp at h)]
    rw [replaceSub_at_pattern]
    rw [replaceSub_char_free _ _ '_' (by simp) _
      (fun hmem => by
        rcases List.mem_append.mp hmem with hbar | hpost
        · revert hbar; decide
        · exact h3 hpost)]
    rw [fileSchemeSub_colon_free _
      (fun hmem => by
        rcases List.mem_append.mp hmem with hl | hr
        · rcases List.mem_append.mp hl with hp | hfoo
          · exact h2 hp
          · revert hfoo; decide
        · rcases List.mem_append.mp hr with hmid | hrest
          · revert hmid; decide
          · rcases List.mem_append.mp hrest with hbar | hpost
            · revert hbar; decide
            · exact h4 hpost)]
    rw [List.append_assoc, List.append_assoc]
    rfl
  · intro post h3 h4
    rw [aio_fix_asset_paths]
    rw [replaceSub_char_free _ _ '_' (by decide) _
      (fun hmem => by
        rcases List.mem_append.mp hmem with hl | hpost
        · revert hl; decide
        · exact h3 hpost)]
    rw [fileSchemeSub]
    refine fileSchemeSubF_strip post h4 _ ?_
    have h8 : (str "file:///" ++ post).length = 8 + post.length := by
      rw [List.length_append]
      rfl
    omega

/-- C6 (counterexample): `fix_asset_paths` / `_fix_asset_paths` rewrite
`foo_files/bar.png` to `foohtml_asset_files/bar.png`, not to
`html_asset_files/bar.png` as the claim states: `str.replace` replaces
the substring `_files/` only, keeping the `foo` prefix of the directory
name. -/
theorem asset_path_rewrite_counterexample :
    fix_asset_paths (str "foo_files/bar.png") = str "foohtml_asset_files/bar.png" ∧
    aio_fix_asset_paths (str "foo_files/bar.png") = str "foohtml_asset_files/bar.png" ∧
    fix_asset_paths (str "foo_files/bar.png") ≠ str "html_asset_files/bar.png" ∧
    aio_fix_asset_paths (str "file:///C:/pics_files/a.png") =
      str "C:/picshtml_asset_files/a.png" := by decide

theorem asset_path_rewrite_witness :
    aio_fix_asset_paths (str "<img src=" ++ str "foo_files/bar.png" ++ str ">") =
      str "<img src=" ++ str "foohtml_asset_files/bar.png" ++ str ">" ∧
    aio_fix_asset_paths (str "file:///" ++ str "pics/a.png") = str "pics/a.png" :=
  ⟨asset_path_rewrite.1 (str "<img src=") (str ">")
     (by decide) (by decide) (by decide) (by decide),
   asset_path_rewrite.2 (str "pics/a.png") (by decide) (by decide)⟩

/-! ## Binding into the canonical organic-result unit -/

/-- The organic-result unit of the saved SERP template
(`div.MjjYud > div.yuRUbf > a[href] > h3`, site label `span.VuuXrf`,
breadcrumb `div.TbwUpd > cite`, snippet `div.VwiC3b`), with its
template text abstracted. -/
def resultUnit (href0 title0 site0 crumb0 snip0 : Str) : Node :=
  Node.elem (str "div") [(str "class", str "MjjYud")]
    [Node.elem (str "div") [(str "class", str "yuRUbf")]
      [Node.elem (str "a") [(str "href", href0)]
        [Node.elem (str "h3") [] [Node.text title0]]],
     Node.elem (str "span") [(str "class", str "VuuXrf")] [Node.text site0],
     Node.elem (str "div") [(str "class", str "TbwUpd")]
      [Node.elem (str "cite") [] [Node.text crumb0]],
     Node.elem (str "div") [(str "class", str "VwiC3b")] [Node.text snip0]]

/-- The same unit after `fill_one_result`: bound link, title, display
site (in the site label and, replacing the cite, in the breadcrumb) and
stripped snippet. -/
def filledUnit (href1 title1 site1 snip1 : Str) : Node :=
  Node.elem (str "div") [(str "class", str "MjjYud")]
    [Node.elem (str "div") [(str "class", str "yuRUbf")]
      [Node.elem (str "a") [(str "href", href1)]
        [Node.elem (str "h3") [] [Node.text title1]]],
     Node.elem (str "span") [(str "class", str "VuuXrf")] [Node.text site1],
     Node.elem (str "div") [(str "class", str "TbwUpd")] [Node.text site1],
     Node.elem (str "div") [(str "class", str "VwiC3b")] [Node.text snip1]]

/-- C8: binding a SourceItem into the organic-result unit sets the
anchor's `href` to the source URL exactly when the URL is non-empty:
with an empty URL the template's original `href` is left in place while
every other field is bound as usual. -/
theorem link_target_conditional_bind
    (href0 title0 site0 crumb0 snip0 url title snip name : Str)
    (hu : url ≠ []) (ht : title ≠ []) :
    fill_one_result (resultUnit href0 title0 site0 crumb0 snip0) url title snip name =
      filledUnit url title (displaySite name url) (pyStrip snip) ∧
    fill_one_result (resultUnit href0 title0 site0 crumb0 snip0) [] title snip name =
      filledUnit href0 title (displaySite name []) (pyStrip snip) := by
  rcases url with _ | ⟨u, us⟩
  · exact absurd rfl hu
  · rcases title with _ | ⟨t, ts⟩
    · exact absurd rfl ht
    · constructor <;> with_unfolding_all rfl

theorem link_target_conditional_bind_witness :
    fill_one_result (resultUnit (str "https://old.example/") (str "Old") (str "OldSite")
        (str "old.example") (str "old snip")) (str "https://new.example/a") (str "New")
        (str " s ") (str "NewSite") =
      filledUnit (str "https://new.example/a") (str "New")
        (displaySite (str "NewSite") (str "https://new.example/a")) (pyStrip (str " s ")) ∧
    fill_one_result (resultUnit (str "https://old.example/") (str "Old") (str "OldSite")
        (str "old.example") (str "old snip")) [] (str "New") (str " s ") (str "NewSite") =
      filledUnit (str "https://old.example/") (str "New")
        (displaySite (str "NewSite") []) (pyStrip (str " s ")) :=
  link_target_conditional_bind (str "https://old.example/") (str "Old") (str "OldSite")
    (str "old.example") (str "old snip") (str "https://new.example/a") (str "New")
    (str " s ") (str "NewSite") (by decide) (by decide)

/-- C9 (amended): the display-name/breadcrumb nodes receive the
stripped display name when it is non-blank; when blank they receive the
URL's netloc exactly as written (case preserved, no lower-casing) with
only a leading literal `www.` stripped. -/
theorem display_name_fallback
    (href0 title0 site0 crumb0 snip0 url title snip name : Str)
    (hu : url ≠ []) (ht : title ≠ []) :
    findDesc vuuPred
        (fill_one_result (resultUnit href0 title0 site0 crumb0 snip0) url title snip name) =
      some (Node.elem (str "span") [(str "class", str "VuuXrf")]
        [Node.text (displaySite name url)]) ∧
    findDesc tbwPred
        (fill_one_result (resultUnit href0 title0 site0 crumb0 snip0) url title snip name) =
      some (Node.elem (str "div") [(str "class", str "TbwUpd")]
        [Node.text (displaySite name url)]) ∧
    ((pyStrip name).isEmpty = true → displaySite name url = pyDomain url) ∧
    ((pyStrip name).isEmpty = false → displaySite name url = pyStrip name) := by
  rcases url with _ | ⟨u, us⟩
  · exact absurd rfl hu
  · rcases title with _ | ⟨t, ts⟩
    · exact absurd rfl ht
    · refine ⟨by with_unfolding_all rfl, by with_unfolding_all rfl, ?_, ?_⟩
      · intro h
        rw [displaySite, if_pos (by simp at h; simp [h])]
      · intro h
        rw [displaySite, if_neg (by simp at h; simp [h])]

/-- C9 (counterexample): with a blank display name the fallback is the
netloc verbatim: `https://WWW.Example.COM/x` yields
`WWW.Example.COM` — not lower-cased, and the upper-case `WWW.` prefix
is not stripped; a non-blank display name is stripped of surrounding
whitespace rather than used verbatim. -/
theorem display_name_fallback_counterexample :
    (findDesc vuuPred
        (fill_one_result (resultUnit (str "h") (str "t") (str "s") (str "c") (str "p"))
          (str "https://WWW.Example.COM/x") (str "T") (str "sn") [])).map
        (fun m => textConcatL m.children) = some (str "WWW.Example.COM") ∧
    str "WWW.Example.COM" ≠ str "example.com" ∧
    (findDesc vuuPred
        (fill_one_result (resultUnit (str "h") (str "t") (str "s") (str "c") (str "p"))
          (str "https://x.example/") (str "T") (str "sn") (str " Foo "))).map
        (fun m => textConcatL m.children) = some (str "Foo") ∧
    str "Foo" ≠ str " Foo " := by decide

theorem display_name_fallback_witness :
    findDesc vuuPred
        (fill_one_result (resultUnit (str "h") (str "t") (str "s") (str "c") (str "p"))
          (str "https://www.Ex.org/q") (str "T") (str "sn") []) =
      some (Node.elem (str "span") [(str "class", str "VuuXrf")]
        [Node.text (displaySite [] (str "https://www.Ex.org/q"))]) ∧
    findDesc tbwPred
        (fill_one_result (resultUnit (str "h") (str "t") (str "s") (str "c") (str "p"))
          (str "https://www.Ex.org/q") (str "T") (str "sn") []) =
      some (Node.elem (str "div") [(str "class", str "TbwUpd")]
        [Node.text (displaySite [] (str "https://www.Ex.org/q"))]) ∧
    ((pyStrip ([] : Str)).isEmpty = true →
      displaySite [] (str "https://www.Ex.org/q") = pyDomain (str "https://www.Ex.org/q")) ∧
    ((pyStrip ([] : Str)).isEmpty = false →
      displaySite [] (str "https://www.Ex.org/q") = pyStrip ([] : Str)) :=
  display_name_fallback (str "h") (str "t") (str "s") (str "c") (str "p")
    (str "https://www.Ex.org/q") (str "T") (str "sn") [] (by decide) (by decide)

/-! ## Answer-text reflow and extraction -/

theorem textsL_lineNodesTail : ∀ rest : List Str, textsL (lineNodesTail rest) = rest := by
  intro rest
  induction rest with
  | nil => rfl
  | cons l ls ih => simp [lineNodesTail, textsL, textsN, ih]

theorem textsL_lineNodes : ∀ ls : List Str, textsL (lineNodes ls) = ls := by
  intro ls
  cases ls with
  | nil => rfl
  | cons l rest => simp [lineNodes, textsL, textsN, textsL_lineNodesTail]

/-- The text strings below a rendered block are exactly its trimmed
non-empty lines: the header and paragraph shells and the `br` joints
contribute no characters. -/
theorem textsN_renderBlock (b : Str) : textsN (renderBlock b) = aioLines b := by
  rw [renderBlock]
  rcases hx : aioLines b with _ | ⟨l, rest⟩
  · simp [textsN, textsL_lineNodes]
  · rcases rest with _ | ⟨l2, rest2⟩
    · by_cases hh : (l.getLast? == some ':' && l.length ≤ 80) = true
      · simp only [hh, if_true]
        rfl
      · simp only [Bool.not_eq_true _ ▸ hh, Bool.false_eq_true, if_false]
        simp [textsN, textsL_lineNodes]
    · simp [textsN, textsL_lineNodes]

/-- Concatenation, in order, of all non-marker text of the answer
nodes: the input split into blocks, each block's trimmed non-empty
lines, concatenated. -/
def normalizedAnswer (s : Str) : Str :=
  (((aioBlocks s).map aioLines).foldr (· ++ ·) []).foldr (· ++ ·) []

theorem textsL_map_renderBlock :
    ∀ bs : List Str, textsL (bs.map renderBlock) = (bs.map aioLines).foldr (· ++ ·) [] := by
  intro bs
  induction bs with
  | nil => rfl
  | cons b rest ih =>
    rw [List.map, textsL, textsN_renderBlock, List.map, List.foldr, ih]

/-- C1 (amended): for answer texts in the modelled fragment domain (no
entity reference, no markup, no carriage return) that are not blank,
the concatenation of all non-marker text of the reflowed output equals
the input after the reflow's normalization: blocks split on blank
lines, lines trimmed, empty lines dropped and line separators removed —
not the input text verbatim. -/
theorem aio_overview_text_normalized (s : Str)
    (hamp : '&' ∉ s) (hlt : '<' ∉ s) (hcr : '\r' ∉ s)
    (hne : pyStrip s ≠ []) :
    textConcatL (renderAioNodes (some s)) = normalizedAnswer s := by
  have hnodes : renderAioNodes (some s) = (aioBlocks s).map renderBlock := by
    simp only [renderAioNodes]
    rw [if_neg (by simp [List.isEmpty_eq_true, hne])]
  rw [hnodes]
  simp only [textConcatL]
  rw [textsL_map_renderBlock]
  rfl

/-- Text extracted from the answer body of a rendering result (used to
check content preservation). -/
def bodyTextOf (r : Except Str Node) : Option Str :=
  match r with
  | .ok c => (findDesc bodyPred c).map (fun b => textConcatL b.children)
  | .error _ => none

/-- C1 (counterexample): the reflow is not verbatim: for the answer
text `" a"` the concatenated non-marker text of the output body is
`"a"` — the leading space is dropped by the per-line trimming — so the
output text differs from the input text. -/
theorem aio_overview_not_verbatim :
    bodyTextOf (replace_aio_overview
      (Node.elem (str "div") []
        [Node.elem (str "div") [(str "class", str "mZJni Dn7Fzd")] []])
      (some (str " a"))) = some (str "a") ∧
    str "a" ≠ str " a" ∧
    textConcatL (renderAioNodes (some (str "x\ny"))) = str "xy" ∧
    str "xy" ≠ str "x\ny" := by decide

theorem aio_overview_text_normalized_witness :
    textConcatL (renderAioNodes (some (str "Key points:\n\nfirst line\nsecond line"))) =
      normalizedAnswer (str "Key points:\n\nfirst line\nsecond line") :=
  aio_overview_text_normalized (str "Key points:\n\nfirst line\nsecond line")
    (by decide) (by decide) (by decide) (by decide)
